import Mathlib

set_option maxHeartbeats 1000000
set_option maxRecDepth 4000

/-- Compartment of an individual: the node attribute named label in the source. -/
inductive Label
  | susceptible
  | infected
  | recovered
  deriving DecidableEq, Repr

/-- Contact graph mirroring the networkx graph object: nodes are (id, label) pairs
kept in insertion order, edges kept in insertion order. -/
structure Graph where
  nodes : List (Nat × Label)
  edges : List (Nat × Nat)
  deriving DecidableEq, Repr

/-- Label attached to node `v`, `none` when `v` is not a node of `g`. -/
def Graph.label (g : Graph) (v : Nat) : Option Label :=
  (g.nodes.find? (fun nd => nd.1 == v)).map Prod.snd

/-- Membership test for node ids. -/
def Graph.hasNode (g : Graph) (v : Nat) : Bool :=
  g.nodes.any (fun nd => nd.1 == v)

/-- networkx add_node with a label attribute: a fresh id is appended; an existing id
keeps its position and its edges and only has its label overwritten. -/
def Graph.addNode (g : Graph) (v : Nat) (l : Label) : Graph :=
  if g.hasNode v then
    { g with nodes := g.nodes.map (fun nd => if nd.1 == v then (v, l) else nd) }
  else
    { g with nodes := g.nodes ++ [(v, l)] }

/-- The attribute assignment on g.nodes[v] performed by the transition branches. -/
def Graph.setLabel (g : Graph) (v : Nat) (l : Label) : Graph :=
  { g with nodes := g.nodes.map (fun nd => if nd.1 == v then (v, l) else nd) }

/-- networkx remove_node: the node and all incident edges disappear. -/
def Graph.removeNode (g : Graph) (v : Nat) : Graph :=
  { nodes := g.nodes.filter (fun nd => !(nd.1 == v)),
    edges := g.edges.filter (fun e => !(e.1 == v) && !(e.2 == v)) }

/-- Adjacency of `v`: neighbors in the order the incident edges were inserted,
matching iteration over the networkx adjacency dict. -/
def Graph.neighbors (g : Graph) (v : Nat) : List Nat :=
  g.edges.filterMap (fun e =>
    if e.1 == v then some e.2 else if e.2 == v then some e.1 else none)

/-- Number of nodes of `g` carrying label `l`. -/
def labelCount (g : Graph) (l : Label) : Nat :=
  (g.nodes.filter (fun nd => nd.2 == l)).length

/-- Node-id list of a graph, in iteration order. -/
def Graph.ids (g : Graph) : List Nat := g.nodes.map Prod.fst

/-- Stream of uniform samples: `seq` is the infinite tape, `idx` the position of the
next random.random() call. -/
structure RState where
  seq : Nat → ℚ
  idx : Nat

/-- One call of random.random(). -/
def RState.draw (r : RState) : ℚ × RState :=
  (r.seq r.idx, { r with idx := r.idx + 1 })

/-- A random tape whose samples are all non-negative, true of random.random(). -/
def NonnegStream (f : Nat → ℚ) : Prop := ∀ i, 0 ≤ f i

/-- Unordered pairs (i, j) with i < j < N, in the nested-loop order of the source. -/
def erPairs (N : Nat) : List (Nat × Nat) :=
  (List.range N).flatMap (fun i =>
    ((List.range N).drop (i + 1)).map (fun j => (i, j)))

/-- Edge sampling loop of generateErdosRenyi: one draw per pair, keeping the pair
exactly when the draw falls below `p`. -/
def genEdges (pairs : List (Nat × Nat)) (p : ℚ) (r : RState) :
    List (Nat × Nat) × RState :=
  match pairs with
  | [] => ([], r)
  | e :: rest =>
    let d := r.draw
    let tail := genEdges rest p d.2
    (if d.1 < p then e :: tail.1 else tail.1, tail.2)

/-- Node block of generateErdosRenyi: ids 0..N-1 labeled susceptible, infected,
recovered in contiguous blocks. The inputs are Python ints, so they may be negative;
only indices below susceptible + infected + recovered exist. -/
def erNodes (susceptible infected recovered : Int) : List (Nat × Label) :=
  (List.range (susceptible + infected + recovered).toNat).map (fun (i : Nat) =>
    if (i : Int) < susceptible then (i, Label.susceptible)
    else if (i : Int) < susceptible + infected then (i, Label.infected)
    else (i, Label.recovered))

/-- Color map built alongside the nodes (visualization output of the generator). -/
def erColors (susceptible infected recovered : Int) : List String :=
  (List.range (susceptible + infected + recovered).toNat).map (fun (i : Nat) =>
    if (i : Int) < susceptible then "orange"
    else if (i : Int) < susceptible + infected then "red"
    else "green")

/-- generateErdosRenyi(susceptible, infected, recovered, p) from the source:
returns the graph, the color map, and the advanced random stream. -/
def generateErdosRenyi (susceptible infected recovered : Int) (p : ℚ) (r : RState) :
    Graph × List String × RState :=
  let es := genEdges (erPairs (susceptible + infected + recovered).toNat) p r
  ({ nodes := erNodes susceptible infected recovered, edges := es.1 },
   erColors susceptible infected recovered, es.2)

/-- findContextToMoveTo(group_num) from the source: one draw selects the distance-1
branch (probability 1/2) or one of the two distance-2 branches (1/4 each); the value
is `none` exactly on the fall-through paths Python leaves implicit. -/
def findContextToMoveTo (group_num : Nat) (r : RState) : Option Nat × RState :=
  let d := r.draw
  if d.1 ≤ mkRat 1 2 then
    (if group_num = 1 then some 2 else if group_num = 2 then some 1
     else if group_num = 3 then some 4 else if group_num = 4 then some 3 else none,
     d.2)
  else if d.1 > mkRat 1 2 ∧ d.1 ≤ mkRat 3 4 then
    (if group_num = 1 then some 3 else if group_num = 2 then some 3
     else if group_num = 3 then some 1 else if group_num = 4 then some 1 else none,
     d.2)
  else
    (if group_num = 1 then some 4 else if group_num = 2 then some 4
     else if group_num = 3 then some 2 else if group_num = 4 then some 2 else none,
     d.2)

/-- One entry of the global graphs list: the graph, cmap, susceptible, infected and
recovered keys of the per-community dictionary. -/
structure Community where
  graph : Graph
  cmap : List String
  susceptible : Int
  infected : Int
  recovered : Int

instance : Inhabited Community :=
  ⟨{ graph := { nodes := [], edges := [] }, cmap := [],
     susceptible := 0, infected := 0, recovered := 0 }⟩

/-- Total population bookkeeping of one community. -/
def Community.total (c : Community) : Int := c.susceptible + c.infected + c.recovered

/-- The scalar parameters read from the user: gamma (contact), beta (infection),
recovery, and move_probability. -/
structure Params where
  gamma : ℚ
  beta : ℚ
  recovery : ℚ
  move_probability : ℚ

/-- r_to_s = recovery: the relapse rate reuses the recovery rate. -/
def Params.r_to_s (p : Params) : ℚ := p.recovery

/-- graphs[k], with an out-of-range default that the simulation never reaches. -/
def getCommunity (gs : List Community) (k : Nat) : Community :=
  gs.getD k default

/-- Replace the graph stored for community `k`. -/
def setGraphOf (gs : List Community) (k : Nat) (g : Graph) : List Community :=
  gs.set k { getCommunity gs k with graph := g }

/-- Increment the compartment counter named by `l`: the dictionary update the
migration branch performs on the destination community. -/
def Community.addCount (c : Community) (l : Label) : Community :=
  match l with
  | Label.susceptible => { c with susceptible := c.susceptible + 1 }
  | Label.infected => { c with infected := c.infected + 1 }
  | Label.recovered => { c with recovered := c.recovered + 1 }

/-- Mutable state of one performGraphIteration call: the shared graphs list, the
three local counters, nodes_to_remove, and the random stream. -/
structure ScanState where
  graphs : List Community
  local_susceptible : Int
  local_infected : Int
  local_recovered : Int
  nodes_to_remove : List Nat
  rng : RState

/-- Neighbor scan of the susceptible branch: the first infected neighbor whose draw
falls below beta puts the node on newly_infected (adjusting the local counters) and
the scan breaks; neighbor labels are read from the live graph. -/
def neighborLoop (p : Params) (k node : Nat) (nbrs : List Nat) (st : ScanState) :
    ScanState × List Nat :=
  match nbrs with
  | [] => (st, [])
  | nb :: rest =>
    if (getCommunity st.graphs k).graph.label nb = some Label.infected then
      let d := st.rng.draw
      if d.1 < p.beta then
        ({ st with
            local_susceptible := st.local_susceptible - 1,
            local_infected := st.local_infected + 1,
            rng := d.2 }, [node])
      else neighborLoop p k node rest { st with rng := d.2 }
    else neighborLoop p k node rest st

/-- Body of the for-node loop of performGraphIteration: migration check, else
recovery, else relapse, else infection, with the same draw discipline
(short-circuit evaluation) as the source; the newly_infected labels are applied at
the end of the susceptible branch itself, exactly where the source indents them. -/
def processNode (p : Params) (num_graph node : Nat) (st : ScanState) : ScanState :=
  let g := (getCommunity st.graphs num_graph).graph
  let d0 := st.rng.draw
  if d0.1 < p.move_probability then
    match findContextToMoveTo (num_graph + 1) d0.2 with
    | (some new_context, r2) =>
      match g.label node with
      | some lbl =>
        let dest := getCommunity st.graphs (new_context - 1)
        let dest2 :=
          Community.addCount { dest with graph := dest.graph.addNode node lbl } lbl
        { st with
            graphs := st.graphs.set (new_context - 1) dest2,
            nodes_to_remove := st.nodes_to_remove ++ [node],
            rng := r2 }
      | none => { st with rng := r2 }
    | (none, r2) => { st with rng := r2 }
  else
    match g.label node with
    | some Label.infected =>
      let d1 := d0.2.draw
      if d1.1 < p.recovery then
        { st with
            graphs := setGraphOf st.graphs num_graph (g.setLabel node Label.recovered),
            local_infected := st.local_infected - 1,
            local_recovered := st.local_recovered + 1,
            rng := d1.2 }
      else { st with rng := d1.2 }
    | some Label.recovered =>
      let d1 := d0.2.draw
      if d1.1 < p.r_to_s then
        { st with
            graphs := setGraphOf st.graphs num_graph (g.setLabel node Label.susceptible),
            local_recovered := st.local_recovered - 1,
            local_susceptible := st.local_susceptible + 1,
            rng := d1.2 }
      else { st with rng := d1.2 }
    | some Label.susceptible =>
      let res := neighborLoop p num_graph node (g.neighbors node) { st with rng := d0.2 }
      res.2.foldl (fun acc x =>
        let gx := ((getCommunity acc.graphs num_graph).graph).setLabel x Label.infected
        { acc with graphs := setGraphOf acc.graphs num_graph gx })
        res.1
    | none => { st with rng := d0.2 }

/-- Deferred removal loop: each migrated node decrements the local counter matching
its label at removal time and is then removed from the source graph. -/
def removeLoop (k : Nat) (vs : List Nat) (st : ScanState) : ScanState :=
  match vs with
  | [] => st
  | v :: rest =>
    let g := (getCommunity st.graphs k).graph
    let gs1 := setGraphOf st.graphs k (g.removeNode v)
    match g.label v with
    | some Label.susceptible =>
      removeLoop k rest
        { st with local_susceptible := st.local_susceptible - 1, graphs := gs1 }
    | some Label.infected =>
      removeLoop k rest
        { st with local_infected := st.local_infected - 1, graphs := gs1 }
    | some Label.recovered =>
      removeLoop k rest
        { st with local_recovered := st.local_recovered - 1, graphs := gs1 }
    | none => removeLoop k rest { st with graphs := gs1 }

/-- performGraphIteration(g, num_graph): scans every node of community num_graph,
performs the deferred removals, and writes the local counters back. -/
def performGraphIteration (p : Params) (num_graph : Nat)
    (gs : List Community) (r : RState) : List Community × RState :=
  let c := getCommunity gs num_graph
  let st0 : ScanState :=
    { graphs := gs, local_susceptible := c.susceptible, local_infected := c.infected,
      local_recovered := c.recovered, nodes_to_remove := [], rng := r }
  let st1 := (c.graph.ids).foldl (fun acc v => processNode p num_graph v acc) st0
  let st2 := removeLoop num_graph st1.nodes_to_remove st1
  let cAfter := getCommunity st2.graphs num_graph
  let c2 := { cAfter with
      susceptible := st2.local_susceptible,
      infected := st2.local_infected,
      recovered := st2.local_recovered }
  (st2.graphs.set num_graph c2, st2.rng)

/-- Result of the four-community update pass of one timestep, carrying the running
global sums that the main loop accumulates right after each community update. -/
structure PassResult where
  graphs : List Community
  rng : RState
  curr_global_susceptible : Int
  curr_global_infected : Int
  curr_global_recovered : Int

/-- The for-loop over communities in the non-zero branch of the main loop: each
community is updated and its counters are added to the running global sums
immediately afterwards (before later communities run). -/
def updatePass (p : Params) (ks : List Nat) (gs : List Community) (r : RState)
    (cs ci cr : Int) : PassResult :=
  match ks with
  | [] =>
    { graphs := gs, rng := r, curr_global_susceptible := cs,
      curr_global_infected := ci, curr_global_recovered := cr }
  | k :: rest =>
    let pg := performGraphIteration p k gs r
    let c := getCommunity pg.1 k
    updatePass p rest pg.1 pg.2 (cs + c.susceptible) (ci + c.infected)
      (cr + c.recovered)

/-- The regeneration loop: every community graph is rebuilt from its now-current
counters after all four updates are done. -/
def regenPass (gamma : ℚ) (ks : List Nat) (gs : List Community) (r : RState) :
    List Community × RState :=
  match ks with
  | [] => (gs, r)
  | k :: rest =>
    let c := getCommunity gs k
    let g := generateErdosRenyi c.susceptible c.infected c.recovered gamma r
    regenPass gamma rest (gs.set k { c with graph := g.1, cmap := g.2.1 }) g.2.2

/-- Global mutable lists of the script: graphs and the four time series. -/
structure SimState where
  graphs : List Community
  global_susceptible : List Int
  global_infected : List Int
  global_recovered : List Int
  timesteps : List Nat
  rng : RState

/-- One community dictionary of the t = 0 branch. -/
def initCommunity (n : Int) (gamma : ℚ) (r : RState) : Community × RState :=
  let g := generateErdosRenyi (n - 1) 1 0 gamma r
  ({ graph := g.1, cmap := g.2.1, susceptible := n - 1, infected := 1,
     recovered := 0 }, g.2.2)

/-- The t = 0 branch of the main loop: four freshly generated communities and the
hard-coded initial global statistics. -/
def initState (n : Int) (gamma : ℚ) (r : RState) : SimState :=
  let a := initCommunity n gamma r
  let b := initCommunity n gamma a.2
  let c := initCommunity n gamma b.2
  let d := initCommunity n gamma c.2
  { graphs := [a.1, b.1, c.1, d.1],
    global_susceptible := [4 * (n - 1)],
    global_infected := [4],
    global_recovered := [0],
    timesteps := [0],
    rng := d.2 }

/-- The non-zero branch of the main loop: the interleaved update-and-accumulate
pass, then regeneration of all four graphs, then the appended snapshot entries. -/
def step (p : Params) (t : Nat) (s : SimState) : SimState :=
  let u := updatePass p [0, 1, 2, 3] s.graphs s.rng 0 0 0
  let rg := regenPass p.gamma [0, 1, 2, 3] u.graphs u.rng
  { graphs := rg.1,
    global_susceptible := s.global_susceptible ++ [u.curr_global_susceptible],
    global_infected := s.global_infected ++ [u.curr_global_infected],
    global_recovered := s.global_recovered ++ [u.curr_global_recovered],
    timesteps := s.timesteps ++ [t],
    rng := rg.2 }

/-- Whole run: t = 0 initialization followed by num_iter iterations of the non-zero
branch (the source loops t from 0 to num_iter inclusive). -/
def run (p : Params) (n : Int) (num_iter : Nat) (r : RState) : SimState :=
  (List.range num_iter).foldl (fun s i => step p (i + 1) s) (initState n p.gamma r)

/-- Modelled from the spec: the per-node body with infections staged, as the spec
sentence demands - newly infected nodes are collected into a pending list and their
labels are not applied during the scan. All other branches are as in the code. -/
def processNodeStaged (p : Params) (num_graph node : Nat) (st : ScanState)
    (pending : List Nat) : ScanState × List Nat :=
  let g := (getCommunity st.graphs num_graph).graph
  let d0 := st.rng.draw
  if d0.1 < p.move_probability then
    match findContextToMoveTo (num_graph + 1) d0.2 with
    | (some new_context, r2) =>
      match g.label node with
      | some lbl =>
        let dest := getCommunity st.graphs (new_context - 1)
        let dest2 :=
          Community.addCount { dest with graph := dest.graph.addNode node lbl } lbl
        ({ st with
            graphs := st.graphs.set (new_context - 1) dest2,
            nodes_to_remove := st.nodes_to_remove ++ [node],
            rng := r2 }, pending)
      | none => ({ st with rng := r2 }, pending)
    | (none, r2) => ({ st with rng := r2 }, pending)
  else
    match g.label node with
    | some Label.infected =>
      let d1 := d0.2.draw
      if d1.1 < p.recovery then
        ({ st with
            graphs := setGraphOf st.graphs num_graph (g.setLabel node Label.recovered),
            local_infected := st.local_infected - 1,
            local_recovered := st.local_recovered + 1,
            rng := d1.2 }, pending)
      else ({ st with rng := d1.2 }, pending)
    | some Label.recovered =>
      let d1 := d0.2.draw
      if d1.1 < p.r_to_s then
        ({ st with
            graphs := setGraphOf st.graphs num_graph (g.setLabel node Label.susceptible),
            local_recovered := st.local_recovered - 1,
            local_susceptible := st.local_susceptible + 1,
            rng := d1.2 }, pending)
      else ({ st with rng := d1.2 }, pending)
    | some Label.susceptible =>
      let res := neighborLoop p num_graph node (g.neighbors node) { st with rng := d0.2 }
      (res.1, pending ++ res.2)
    | none => ({ st with rng := d0.2 }, pending)

/-- Modelled from the spec: performGraphIteration with staged infection application -
the pending infection labels are applied only after every node has been scanned,
then the deferred removals run and the locals are written back. -/
def performGraphIterationStaged (p : Params) (num_graph : Nat)
    (gs : List Community) (r : RState) : List Community × RState :=
  let c := getCommunity gs num_graph
  let st0 : ScanState :=
    { graphs := gs, local_susceptible := c.susceptible, local_infected := c.infected,
      local_recovered := c.recovered, nodes_to_remove := [], rng := r }
  let scan := (c.graph.ids).foldl
    (fun acc v => processNodeStaged p num_graph v acc.1 acc.2) (st0, [])
  let st1 := scan.2.foldl (fun acc x =>
    let gx := ((getCommunity acc.graphs num_graph).graph).setLabel x Label.infected
    { acc with graphs := setGraphOf acc.graphs num_graph gx }) scan.1
  let st2 := removeLoop num_graph st1.nodes_to_remove st1
  let cAfter := getCommunity st2.graphs num_graph
  let c2 := { cAfter with
      susceptible := st2.local_susceptible,
      infected := st2.local_infected,
      recovered := st2.local_recovered }
  (st2.graphs.set num_graph c2, st2.rng)

/-- Distance-1 sibling of the claimed binary tree: 1 and 2, 3 and 4 swap. -/
def siblingOf (g : Nat) : Nat :=
  if g = 1 then 2 else if g = 2 then 1 else if g = 3 then 4 else 3

/-- Destination the code actually chooses in the branch 1/2 < u <= 3/4: the
lower-numbered community of the opposite sibling pair. -/
def distTwoLow (g : Nat) : Nat := if g = 1 ∨ g = 2 then 3 else 1

/-- Destination the code actually chooses in the branch u > 3/4: the higher-numbered
community of the opposite sibling pair. -/
def distTwoHigh (g : Nat) : Nat := if g = 1 ∨ g = 2 then 4 else 2

/-- The distance-2 pairing (1,3)/(2,4) that the spec says one branch realizes. -/
def specPairing13 (g : Nat) : Nat :=
  if g = 1 then 3 else if g = 3 then 1 else if g = 2 then 4 else 2

/-- The distance-2 pairing (1,4)/(2,3) that the spec says the other branch
realizes. -/
def specPairing14 (g : Nat) : Nat :=
  if g = 1 then 4 else if g = 4 then 1 else if g = 2 then 3 else 2

/-- A tape landing every draw in the first distance-2 branch. -/
def tapeBranchA : RState := ⟨fun _ => mkRat 3 5, 0⟩

/-- A tape landing every draw in the second distance-2 branch. -/
def tapeBranchB : RState := ⟨fun _ => mkRat 9 10, 0⟩

/-- Parameters of the immediate-infection run: certain infection, no recovery, no
movement, half contact probability. -/
def pImmediate : Params :=
  { gamma := mkRat 1 2, beta := mkRat 99 100, recovery := 0, move_probability := 0 }

/-- Tape of the immediate-infection run: community 1 gets edges (0,1) and (0,2) at
initialization, and both infection rolls of timestep 1 succeed. -/
def tapeImmediate : RState :=
  ⟨fun i => if i = 0 ∨ i = 1 ∨ i = 13 ∨ i = 15 then mkRat 1 10 else mkRat 9 10, 0⟩

/-- Parameters with movement only: infection, recovery and contact all zero, move
probability one half. -/
def pMoveOnly : Params :=
  { gamma := 0, beta := 0, recovery := 0, move_probability := mkRat 1 2 }

/-- Tape under which, with population one per community, only the individual of
community 2 moves during timestep 1, and its destination is community 1. -/
def tapeBackMove : RState :=
  ⟨fun i => if i = 2 then mkRat 1 10 else if i = 3 then mkRat 3 10 else mkRat 9 10, 0⟩

/-- Parameters of the collision run: every probability one half. -/
def pHalf : Params :=
  { gamma := mkRat 1 2, beta := mkRat 1 2, recovery := mkRat 1 2, move_probability := mkRat 1 2 }

/-- Tape of the collision run (population two per community): at timestep 1,
community 2 acquires an infected node 0 and a recovered node 1 joined by an edge,
and community 3 sends its susceptible node 0 to community 1; at timestep 2,
community 1 sends its susceptible node 1 onto community 2's recovered node 1, then
community 2's infected node 0 is scheduled to migrate and still infects node 1. -/
def tapeCollision : RState :=
  ⟨fun i =>
    if i = 12 then mkRat 6 10
    else if i = 1 ∨ i = 8 ∨ i = 10 ∨ i = 11 ∨ i = 21 ∨ i = 24 ∨ i = 25 ∨ i = 28
        ∨ i = 29 ∨ i = 31 then mkRat 1 10
    else mkRat 9 10, 0⟩

/-- State of the collision run after timestep 1 completes. -/
def collisionStep1 : SimState := step pHalf 1 (initState 2 (mkRat 1 2) tapeCollision)

/-- Graphs and tape of the collision run after community 1's update of timestep 2. -/
def collisionAfterC0 : List Community × RState :=
  performGraphIteration pHalf 0 collisionStep1.graphs collisionStep1.rng

/-- Scan state at the start of community 2's update of timestep 2 in the collision
run. -/
def collisionScan0 : ScanState :=
  { graphs := collisionAfterC0.1,
    local_susceptible := (getCommunity collisionAfterC0.1 1).susceptible,
    local_infected := (getCommunity collisionAfterC0.1 1).infected,
    local_recovered := (getCommunity collisionAfterC0.1 1).recovered,
    nodes_to_remove := [], rng := collisionAfterC0.2 }

/-- C8: findContextToMoveTo, applied to a source community in {1,2,3,4}, always
returns some destination in {1,2,3,4} different from the source, whatever the
sampled value is. -/
theorem findContextToMoveTo_avoids_source (g : Nat) (r : RState)
    (hg : g = 1 ∨ g = 2 ∨ g = 3 ∨ g = 4) :
    ∃ d, (findContextToMoveTo g r).1 = some d ∧
      (d = 1 ∨ d = 2 ∨ d = 3 ∨ d = 4) ∧ d ≠ g := by
  unfold findContextToMoveTo
  rcases hg with rfl | rfl | rfl | rfl <;> simp [RState.draw] <;> split_ifs <;> simp

/-- Witness for C8 at source community 1 on a concrete tape. -/
theorem findContextToMoveTo_avoids_source_witness :
    ((1:Nat) = 1 ∨ (1:Nat) = 2 ∨ (1:Nat) = 3 ∨ (1:Nat) = 4) ∧
    ∃ d, (findContextToMoveTo 1 tapeBranchA).1 = some d ∧
      (d = 1 ∨ d = 2 ∨ d = 3 ∨ d = 4) ∧ d ≠ 1 :=
  ⟨Or.inl rfl, findContextToMoveTo_avoids_source 1 tapeBranchA (Or.inl rfl)⟩

/-- C9 as amended: the u <= 1/2 branch swaps distance-1 siblings as claimed, but the
two distance-2 branches send both members of a sibling pair to the same target: the
lower-numbered community of the opposite pair for 1/2 < u <= 3/4, the higher-numbered
one for u > 3/4. -/
theorem findContextToMoveTo_branch_mapping (g : Nat) (r : RState)
    (hg : g = 1 ∨ g = 2 ∨ g = 3 ∨ g = 4) :
    (findContextToMoveTo g r).1 = some (
      if r.seq r.idx ≤ mkRat 1 2 then siblingOf g
      else if r.seq r.idx ≤ mkRat 3 4 then distTwoLow g
      else distTwoHigh g) := by
  unfold findContextToMoveTo siblingOf distTwoLow distTwoHigh
  rcases hg with rfl | rfl | rfl | rfl <;> simp [RState.draw] <;> split_ifs <;>
    first
    | rfl
    | (exfalso; linarith)
    | simp_all

/-- Witness for the amended C9 at source community 2 on a concrete tape. -/
theorem findContextToMoveTo_branch_mapping_witness :
    ((2:Nat) = 1 ∨ (2:Nat) = 2 ∨ (2:Nat) = 3 ∨ (2:Nat) = 4) ∧
    (findContextToMoveTo 2 tapeBranchA).1 = some (
      if tapeBranchA.seq tapeBranchA.idx ≤ mkRat 1 2 then siblingOf 2
      else if tapeBranchA.seq tapeBranchA.idx ≤ mkRat 3 4 then distTwoLow 2
      else distTwoHigh 2) :=
  ⟨Or.inr (Or.inl rfl),
   findContextToMoveTo_branch_mapping 2 tapeBranchA (Or.inr (Or.inl rfl))⟩

/-- C9 fails as stated: with the sampler at 3/5 (first distance-2 branch) both
community 1 and community 2 map to 3, and with the sampler at 9/10 both map to 4,
so no assignment of the two branches realizes the perfect pairings (1,3)/(2,4) and
(1,4)/(2,3) the spec describes. -/
theorem spec_pairing_mismatch_cx :
    ¬ ((∀ g, (g = 1 ∨ g = 2 ∨ g = 3 ∨ g = 4) →
          (findContextToMoveTo g tapeBranchA).1 = some (specPairing13 g) ∧
          (findContextToMoveTo g tapeBranchB).1 = some (specPairing14 g)) ∨
       (∀ g, (g = 1 ∨ g = 2 ∨ g = 3 ∨ g = 4) →
          (findContextToMoveTo g tapeBranchA).1 = some (specPairing14 g) ∧
          (findContextToMoveTo g tapeBranchB).1 = some (specPairing13 g))) := by
  rintro (h | h)
  · have h2 := (h 2 (Or.inr (Or.inl rfl))).1
    have hv : (findContextToMoveTo 2 tapeBranchA).1 = some 3 := by decide
    rw [hv] at h2
    simp [specPairing13] at h2
  · have h1 := (h 1 (Or.inl rfl)).1
    have hv : (findContextToMoveTo 1 tapeBranchA).1 = some 3 := by decide
    rw [hv] at h1
    simp [specPairing14] at h1

/-- C1 (code bug): on the immediate-infection run the code lets node 1 be infected
through node 0, which only became infected earlier in the same scan, ending with 3
infected and 0 susceptible in community 1; the staged application that the spec and
the source comment describe ends the same scan with only 2 infected. -/
theorem immediate_infection_application :
    (getCommunity (run pImmediate 3 1 tapeImmediate).graphs 0).infected = 3 ∧
    (getCommunity (run pImmediate 3 1 tapeImmediate).graphs 0).susceptible = 0 ∧
    (getCommunity (performGraphIterationStaged pImmediate 0
        (initState 3 (mkRat 1 2) tapeImmediate).graphs
        (initState 3 (mkRat 1 2) tapeImmediate).rng).1 0).infected = 2 ∧
    (getCommunity (performGraphIterationStaged pImmediate 0
        (initState 3 (mkRat 1 2) tapeImmediate).graphs
        (initState 3 (mkRat 1 2) tapeImmediate).rng).1 0).susceptible = 1 := by
  decide

/-- C2 fails as stated: with one individual per community, during timestep 1 the
individual of community 2 moves to the already-accumulated community 1, so the
recorded global infected entry is 3 while the per-community infected counts after
all four updates sum to 4. -/
theorem globalSnapshot_interleaved_cx :
    (run pMoveOnly 1 1 tapeBackMove).global_infected.getD 1 0 = 3 ∧
    (getCommunity (run pMoveOnly 1 1 tapeBackMove).graphs 0).infected +
      (getCommunity (run pMoveOnly 1 1 tapeBackMove).graphs 1).infected +
      (getCommunity (run pMoveOnly 1 1 tapeBackMove).graphs 2).infected +
      (getCommunity (run pMoveOnly 1 1 tapeBackMove).graphs 3).infected = 4 := by
  decide

/-- C5 fails as stated: with infection and recovery rates zero but a positive move
probability, community 2's infected count drops from its value 1 at t = 0 to 0 at
t = 1 because its individual migrated. -/
theorem frozen_counts_need_move_zero_cx :
    (getCommunity (initState 1 0 tapeBackMove).graphs 1).infected = 1 ∧
    (getCommunity (run pMoveOnly 1 1 tapeBackMove).graphs 1).infected = 0 := by
  decide

/-- C6 fails as stated: at the allowed population value 0, initialization records
susceptible = 0 - 1 = -1, a negative compartment count. -/
theorem init_negative_susceptible_cx :
    (getCommunity (initState 0 0 tapeBranchB).graphs 0).susceptible = -1 ∧
    (getCommunity (initState 0 0 tapeBranchB).graphs 0).susceptible < 0 := by
  decide

/-- C4 fails as stated: in the collision run, community 1's susceptible node 1
migrates into community 2 keeping its id 1, which community 2's graph already uses
for a recovered node; the insertion adds no node (the count stays 2) and overwrites
that existing node's label from recovered to susceptible. -/
theorem migration_overwrites_existing_node_cx :
    (getCommunity collisionStep1.graphs 1).graph.label 1 = some Label.recovered ∧
    (getCommunity collisionStep1.graphs 1).graph.nodes.length = 2 ∧
    (getCommunity collisionAfterC0.1 1).graph.label 1 = some Label.susceptible ∧
    (getCommunity collisionAfterC0.1 1).graph.nodes.length = 2 := by
  decide

/-- C10: in the collision run, community 2's infected node 0 is scheduled to migrate
to community 1, whose infected counter goes from 1 to 2 immediately; the node stays
in community 2's graph with label infected, its susceptible neighbor node 1 rolls
against it later in the same scan and becomes infected, and node 0 disappears from
community 2's graph only once the whole update finishes. -/
theorem migrant_lingers_and_infects_in_source :
    (getCommunity collisionScan0.graphs 0).infected = 1 ∧
    (getCommunity (processNode pHalf 1 0 collisionScan0).graphs 0).infected = 2 ∧
    (processNode pHalf 1 0 collisionScan0).nodes_to_remove = [0] ∧
    (getCommunity (processNode pHalf 1 0 collisionScan0).graphs 1).graph.hasNode 0
      = true ∧
    (getCommunity (processNode pHalf 1 0 collisionScan0).graphs 1).graph.label 0
      = some Label.infected ∧
    (getCommunity (processNode pHalf 1 0 collisionScan0).graphs 1).graph.neighbors 1
      = [0] ∧
    (getCommunity (processNode pHalf 1 1
        (processNode pHalf 1 0 collisionScan0)).graphs 1).graph.label 1
      = some Label.infected ∧
    (getCommunity (performGraphIteration pHalf 1
        collisionAfterC0.1 collisionAfterC0.2).1 1).graph.hasNode 0 = false := by
  decide

/-- The three counters of a community, as a tuple. -/
def Community.counts (c : Community) : Int × Int × Int :=
  (c.susceptible, c.infected, c.recovered)

lemma getCommunity_set (gs : List Community) (k j : Nat) (c : Community) :
    getCommunity (gs.set k c) j =
      if k = j ∧ k < gs.length then c else getCommunity gs j := by
  unfold getCommunity
  rw [List.getD_eq_getElem?_getD, List.getD_eq_getElem?_getD, List.getElem?_set]
  by_cases h1 : k = j
  · subst h1
    by_cases h2 : k < gs.length
    · simp [h2]
    · simp [h2, List.getElem?_eq_none (Nat.le_of_not_lt h2)]
  · simp [h1]

lemma getCommunity_set_ne (gs : List Community) (k j : Nat) (c : Community)
    (h : k ≠ j) : getCommunity (gs.set k c) j = getCommunity gs j := by
  rw [getCommunity_set]; simp [h]

lemma getCommunity_set_self (gs : List Community) (k : Nat) (c : Community)
    (h : k < gs.length) : getCommunity (gs.set k c) k = c := by
  rw [getCommunity_set]; simp [h]

lemma setGraphOf_length (gs : List Community) (k : Nat) (g : Graph) :
    (setGraphOf gs k g).length = gs.length := by
  unfold setGraphOf; exact List.length_set ..

lemma getCommunity_setGraphOf_ne (gs : List Community) (k j : Nat) (g : Graph)
    (h : k ≠ j) : getCommunity (setGraphOf gs k g) j = getCommunity gs j := by
  unfold setGraphOf; exact getCommunity_set_ne _ _ _ _ h

lemma getCommunity_setGraphOf_self (gs : List Community) (k : Nat) (g : Graph)
    (h : k < gs.length) :
    getCommunity (setGraphOf gs k g) k = { getCommunity gs k with graph := g } := by
  unfold setGraphOf; exact getCommunity_set_self _ _ _ h

lemma counts_setGraphOf (gs : List Community) (k j : Nat) (g : Graph) :
    (getCommunity (setGraphOf gs k g) j).counts = (getCommunity gs j).counts := by
  unfold setGraphOf
  rw [getCommunity_set]
  by_cases h : k = j ∧ k < gs.length
  · obtain ⟨rfl, h2⟩ := h
    simp [Community.counts, h2]
  · simp [h]

lemma addNode_length (g : Graph) (v : Nat) (l : Label) :
    (g.addNode v l).nodes.length =
      if g.hasNode v then g.nodes.length else g.nodes.length + 1 := by
  unfold Graph.addNode
  split <;> simp [*]

lemma setLabel_length (g : Graph) (v : Nat) (l : Label) :
    (g.setLabel v l).nodes.length = g.nodes.length := by
  unfold Graph.setLabel; simp

lemma removeNode_length_le (g : Graph) (v : Nat) :
    (g.removeNode v).nodes.length ≤ g.nodes.length := by
  unfold Graph.removeNode
  exact List.length_filter_le _ _

lemma removeNode_length_lt (g : Graph) (v : Nat) (l : Label)
    (h : g.label v = some l) :
    (g.removeNode v).nodes.length + 1 ≤ g.nodes.length := by
  unfold Graph.label at h
  rcases Option.map_eq_some'.mp h with ⟨nd, hfind, hl⟩
  have hmem := List.mem_of_find?_eq_some hfind
  have hpred := List.find?_some hfind
  have h2 : ((g.nodes.filter (fun nd => !(nd.1 == v))).length : Nat)
      < g.nodes.length := by
    rw [List.length_filter_lt_length_iff_exists]
    exact ⟨nd, hmem, by simp_all⟩
  have h3 : (g.removeNode v).nodes.length
      = (g.nodes.filter (fun nd => !(nd.1 == v))).length := rfl
  omega

lemma removeNode_none (g : Graph) (v : Nat) (h : g.label v = none) :
    (g.removeNode v).nodes = g.nodes := by
  unfold Graph.label at h
  unfold Graph.removeNode
  rw [Option.map_eq_none'] at h
  rw [List.find?_eq_none] at h
  exact List.filter_eq_self.mpr (fun nd hm => by simpa using h nd hm)

lemma findContextToMoveTo_rng (g : Nat) (r : RState) :
    (findContextToMoveTo g r).2 = { r with idx := r.idx + 1 } := by
  unfold findContextToMoveTo
  simp only [RState.draw]
  split_ifs <;> rfl

lemma findContextToMoveTo_mem (g : Nat) (r : RState) (d : Nat)
    (h : (findContextToMoveTo g r).1 = some d) :
    (d = 1 ∨ d = 2 ∨ d = 3 ∨ d = 4) ∧ d ≠ g := by
  unfold findContextToMoveTo at h
  simp only [RState.draw] at h
  split_ifs at h <;> simp_all <;> omega

lemma neighborLoop_graphs (p : Params) (k v : Nat) (nbrs : List Nat)
    (st : ScanState) :
    (neighborLoop p k v nbrs st).1.graphs = st.graphs ∧
    (neighborLoop p k v nbrs st).1.nodes_to_remove = st.nodes_to_remove ∧
    (neighborLoop p k v nbrs st).1.local_recovered = st.local_recovered ∧
    (neighborLoop p k v nbrs st).1.local_susceptible
        + (neighborLoop p k v nbrs st).1.local_infected
      = st.local_susceptible + st.local_infected ∧
    (neighborLoop p k v nbrs st).1.rng.seq = st.rng.seq := by
  induction nbrs generalizing st with
  | nil => simp [neighborLoop]
  | cons nb rest ih =>
    unfold neighborLoop
    dsimp only [RState.draw]
    by_cases h1 : (getCommunity st.graphs k).graph.label nb = some Label.infected
    · rw [if_pos h1]
      by_cases h2 : st.rng.seq st.rng.idx < p.beta
      · rw [if_pos h2]
        refine ⟨rfl, rfl, rfl, ?_, rfl⟩
        show st.local_susceptible - 1 + (st.local_infected + 1)
          = st.local_susceptible + st.local_infected
        omega
      · rw [if_neg h2]
        exact ih _
    · rw [if_neg h1]
      exact ih st

lemma neighborLoop_newly (p : Params) (k v : Nat) (nbrs : List Nat)
    (st : ScanState) :
    (neighborLoop p k v nbrs st).2 = [] ∨ (neighborLoop p k v nbrs st).2 = [v] := by
  induction nbrs generalizing st with
  | nil => simp [neighborLoop]
  | cons nb rest ih =>
    unfold neighborLoop
    dsimp only [RState.draw]
    by_cases h1 : (getCommunity st.graphs k).graph.label nb = some Label.infected
    · rw [if_pos h1]
      by_cases h2 : st.rng.seq st.rng.idx < p.beta
      · rw [if_pos h2]
        right
        rfl
      · rw [if_neg h2]
        exact ih _
    · rw [if_neg h1]
      exact ih st

lemma removeLoop_basic (k : Nat) (vs : List Nat) (st : ScanState) :
    (removeLoop k vs st).rng = st.rng ∧
    (removeLoop k vs st).graphs.length = st.graphs.length ∧
    (removeLoop k vs st).nodes_to_remove = st.nodes_to_remove := by
  induction vs generalizing st with
  | nil => simp [removeLoop]
  | cons v rest ih =>
    unfold removeLoop
    dsimp only
    rcases hl : (getCommunity st.graphs k).graph.label v with _ | l
    · simp only [hl]
      exact ⟨(ih _).1, (ih _).2.1.trans (setGraphOf_length _ _ _), (ih _).2.2⟩
    · cases l <;> simp only [hl] <;>
        exact ⟨(ih _).1, (ih _).2.1.trans (setGraphOf_length _ _ _), (ih _).2.2⟩

lemma genEdges_seq (pairs : List (Nat × Nat)) (p : ℚ) (r : RState) :
    (genEdges pairs p r).2.seq = r.seq := by
  induction pairs generalizing r with
  | nil => rfl
  | cons e rest ih =>
    unfold genEdges
    dsimp only [RState.draw]
    exact ih _

lemma generateErdosRenyi_seq (s i r : Int) (p : ℚ) (rng : RState) :
    (generateErdosRenyi s i r p rng).2.2.seq = rng.seq := by
  unfold generateErdosRenyi
  exact genEdges_seq _ _ _

lemma generateErdosRenyi_nodes_length (s i r : Int) (p : ℚ) (rng : RState) :
    (generateErdosRenyi s i r p rng).1.nodes.length = (s + i + r).toNat := by
  unfold generateErdosRenyi erNodes
  simp

lemma generateErdosRenyi_counts :
    ∀ (s i r : Int) (p : ℚ) (rng : RState),
    (generateErdosRenyi s i r p rng).1.nodes = erNodes s i r :=
  fun _ _ _ _ _ => rfl

lemma regenPass_counts (gamma : ℚ) (ks : List Nat) (gs : List Community)
    (r : RState) (j : Nat) :
    (getCommunity (regenPass gamma ks gs r).1 j).counts
      = (getCommunity gs j).counts ∧
    (regenPass gamma ks gs r).1.length = gs.length ∧
    (regenPass gamma ks gs r).2.seq = r.seq := by
  induction ks generalizing gs r with
  | nil => exact ⟨rfl, rfl, rfl⟩
  | cons k rest ih =>
    unfold regenPass
    dsimp only
    refine ⟨?_, ?_, ?_⟩
    · rw [(ih _ _).1]
      rw [getCommunity_set]
      by_cases h : k = j ∧ k < gs.length
      · obtain ⟨rfl, h2⟩ := h
        simp [Community.counts, h2]
      · simp [h]
    · rw [(ih _ _).2.1, List.length_set]
    · rw [(ih _ _).2.2, generateErdosRenyi_seq]

lemma neighborLoop_beta0 (p : Params) (k v : Nat) (nbrs : List Nat) (st : ScanState)
    (hb : p.beta = 0) (hnn : NonnegStream st.rng.seq) :
    (neighborLoop p k v nbrs st).1
        = { st with rng := (neighborLoop p k v nbrs st).1.rng } ∧
    (neighborLoop p k v nbrs st).2 = [] := by
  induction nbrs generalizing st with
  | nil => exact ⟨rfl, rfl⟩
  | cons nb rest ih =>
    unfold neighborLoop
    dsimp only [RState.draw]
    by_cases h1 : (getCommunity st.graphs k).graph.label nb = some Label.infected
    · rw [if_pos h1, if_neg (by rw [hb]; exact not_lt.mpr (hnn st.rng.idx))]
      exact ih _ hnn
    · rw [if_neg h1]
      exact ih st hnn

lemma processNode_basic (p : Params) (k v : Nat) (st : ScanState) :
    (processNode p k v st).graphs.length = st.graphs.length ∧
    (processNode p k v st).rng.seq = st.rng.seq := by
  unfold processNode
  dsimp only [RState.draw]
  by_cases hmv : st.rng.seq st.rng.idx < p.move_probability
  · rw [if_pos hmv]
    rcases hfc : findContextToMoveTo (k + 1) ⟨st.rng.seq, st.rng.idx + 1⟩ with ⟨o, r2⟩
    have hr2 : r2.seq = st.rng.seq := by
      have h := findContextToMoveTo_rng (k + 1) ⟨st.rng.seq, st.rng.idx + 1⟩
      rw [hfc] at h
      have h2 : r2 = (⟨st.rng.seq, st.rng.idx + 1 + 1⟩ : RState) := h
      rw [h2]
    cases o with
    | none => exact ⟨rfl, hr2⟩
    | some c =>
      cases hlb : (getCommunity st.graphs k).graph.label v with
      | none => exact ⟨rfl, hr2⟩
      | some lbl =>
        dsimp only
        exact ⟨List.length_set .., hr2⟩
  · rw [if_neg hmv]
    cases hlb : (getCommunity st.graphs k).graph.label v with
    | none => exact ⟨rfl, rfl⟩
    | some lbl =>
      cases lbl with
      | infected =>
        dsimp only
        by_cases h2 : st.rng.seq (st.rng.idx + 1) < p.recovery
        · rw [if_pos h2]
          exact ⟨setGraphOf_length .., rfl⟩
        · rw [if_neg h2]
          exact ⟨rfl, rfl⟩
      | recovered =>
        dsimp only
        by_cases h2 : st.rng.seq (st.rng.idx + 1) < p.r_to_s
        · rw [if_pos h2]
          exact ⟨setGraphOf_length .., rfl⟩
        · rw [if_neg h2]
          exact ⟨rfl, rfl⟩
      | susceptible =>
        dsimp only
        have hg := neighborLoop_graphs p k v
          ((getCommunity st.graphs k).graph.neighbors v)
          { st with rng := ⟨st.rng.seq, st.rng.idx + 1⟩ }
        rcases neighborLoop_newly p k v
            ((getCommunity st.graphs k).graph.neighbors v)
            { st with rng := ⟨st.rng.seq, st.rng.idx + 1⟩ } with hn | hn <;>
          rw [hn] <;> simp only [List.foldl]
        · exact ⟨congrArg List.length hg.1, hg.2.2.2.2⟩
        · refine ⟨?_, hg.2.2.2.2⟩
          show (setGraphOf _ k _).length = _
          rw [setGraphOf_length]
          exact congrArg List.length hg.1

lemma processNode_move0 (p : Params) (k v : Nat) (st : ScanState)
    (hm : p.move_probability = 0) (hnn : 0 ≤ st.rng.seq st.rng.idx) :
    (∀ j, (getCommunity (processNode p k v st).graphs j).counts
      = (getCommunity st.graphs j).counts) ∧
    (∀ j, j ≠ k → getCommunity (processNode p k v st).graphs j
      = getCommunity st.graphs j) ∧
    (processNode p k v st).local_susceptible + (processNode p k v st).local_infected
        + (processNode p k v st).local_recovered
      = st.local_susceptible + st.local_infected + st.local_recovered ∧
    (processNode p k v st).nodes_to_remove = st.nodes_to_remove := by
  unfold processNode
  dsimp only [RState.draw]
  rw [if_neg (by rw [hm]; exact not_lt.mpr hnn)]
  cases hlb : (getCommunity st.graphs k).graph.label v with
  | none => exact ⟨fun j => rfl, fun j hj => rfl, rfl, rfl⟩
  | some lbl =>
    cases lbl with
    | infected =>
      dsimp only
      by_cases h2 : st.rng.seq (st.rng.idx + 1) < p.recovery
      · rw [if_pos h2]
        refine ⟨fun j => counts_setGraphOf .., fun j hj =>
          getCommunity_setGraphOf_ne _ _ _ _ (Ne.symm hj), ?_, rfl⟩
        show st.local_susceptible + (st.local_infected - 1)
            + (st.local_recovered + 1) = _
        omega
      · rw [if_neg h2]
        exact ⟨fun j => rfl, fun j hj => rfl, rfl, rfl⟩
    | recovered =>
      dsimp only
      by_cases h2 : st.rng.seq (st.rng.idx + 1) < p.r_to_s
      · rw [if_pos h2]
        refine ⟨fun j => counts_setGraphOf .., fun j hj =>
          getCommunity_setGraphOf_ne _ _ _ _ (Ne.symm hj), ?_, rfl⟩
        show st.local_susceptible + 1 + st.local_infected
            + (st.local_recovered - 1) = _
        omega
      · rw [if_neg h2]
        exact ⟨fun j => rfl, fun j hj => rfl, rfl, rfl⟩
    | susceptible =>
      dsimp only
      have hg := neighborLoop_graphs p k v
        ((getCommunity st.graphs k).graph.neighbors v)
        { st with rng := ⟨st.rng.seq, st.rng.idx + 1⟩ }
      rcases neighborLoop_newly p k v
          ((getCommunity st.graphs k).graph.neighbors v)
          { st with rng := ⟨st.rng.seq, st.rng.idx + 1⟩ } with hn | hn <;>
        rw [hn] <;> simp only [List.foldl]
      · refine ⟨fun j => by rw [hg.1], fun j hj => by rw [hg.1], ?_, hg.2.1⟩
        have h4 := hg.2.2.2.1
        have h3 := hg.2.2.1
        dsimp only at h3 h4 ⊢
        omega
      · refine ⟨?_, ?_, ?_, hg.2.1⟩
        · intro j
          show (getCommunity (setGraphOf _ k _) j).counts = _
          rw [counts_setGraphOf, hg.1]
        · intro j hj
          show getCommunity (setGraphOf _ k _) j = _
          rw [getCommunity_setGraphOf_ne _ _ _ _ (Ne.symm hj), hg.1]
        · have h4 := hg.2.2.2.1
          have h3 := hg.2.2.1
          dsimp only at h3 h4 ⊢
          omega

lemma processNode_frozen (p : Params) (k v : Nat) (st : ScanState)
    (hm : p.move_probability = 0) (hb : p.beta = 0) (hr : p.recovery = 0)
    (hnn : NonnegStream st.rng.seq) :
    processNode p k v st = { st with rng := (processNode p k v st).rng } := by
  unfold processNode
  dsimp only [RState.draw]
  rw [if_neg (by rw [hm]; exact not_lt.mpr (hnn _))]
  cases hlb : (getCommunity st.graphs k).graph.label v with
  | none => rfl
  | some lbl =>
    cases lbl with
    | infected =>
      dsimp only
      rw [if_neg (by rw [hr]; exact not_lt.mpr (hnn _))]
    | recovered =>
      dsimp only
      rw [if_neg (show ¬ st.rng.seq (st.rng.idx + 1) < p.r_to_s by
        unfold Params.r_to_s; rw [hr]; exact not_lt.mpr (hnn _))]
    | susceptible =>
      dsimp only
      have h := neighborLoop_beta0 p k v
        ((getCommunity st.graphs k).graph.neighbors v)
        { st with rng := ⟨st.rng.seq, st.rng.idx + 1⟩ } hb hnn
      rw [h.2]
      simp only [List.foldl]
      exact h.1

lemma foldl_processNode_basic (p : Params) (k : Nat) (ids : List Nat)
    (st : ScanState) :
    ((ids.foldl (fun acc v => processNode p k v acc) st).graphs.length
      = st.graphs.length) ∧
    ((ids.foldl (fun acc v => processNode p k v acc) st).rng.seq
      = st.rng.seq) := by
  induction ids generalizing st with
  | nil => exact ⟨rfl, rfl⟩
  | cons v rest ih =>
    simp only [List.foldl]
    constructor
    · rw [(ih _).1, (processNode_basic p k v st).1]
    · rw [(ih _).2, (processNode_basic p k v st).2]

lemma performGraphIteration_basic (p : Params) (k : Nat) (gs : List Community)
    (r : RState) :
    (performGraphIteration p k gs r).1.length = gs.length ∧
    (performGraphIteration p k gs r).2.seq = r.seq := by
  unfold performGraphIteration
  dsimp only
  constructor
  · rw [List.length_set, (removeLoop_basic _ _ _).2.1]
    exact (foldl_processNode_basic ..).1
  · rw [congrArg RState.seq (removeLoop_basic _ _ _).1]
    exact (foldl_processNode_basic ..).2

lemma foldl_processNode_move0 (p : Params) (k : Nat) (ids : List Nat)
    (st : ScanState) (hm : p.move_probability = 0)
    (hnn : NonnegStream st.rng.seq) :
    (∀ j, j ≠ k →
      getCommunity (ids.foldl (fun acc v => processNode p k v acc) st).graphs j
        = getCommunity st.graphs j) ∧
    ((ids.foldl (fun acc v => processNode p k v acc) st).local_susceptible
        + (ids.foldl (fun acc v => processNode p k v acc) st).local_infected
        + (ids.foldl (fun acc v => processNode p k v acc) st).local_recovered
      = st.local_susceptible + st.local_infected + st.local_recovered) ∧
    ((ids.foldl (fun acc v => processNode p k v acc) st).nodes_to_remove
      = st.nodes_to_remove) := by
  induction ids generalizing st with
  | nil => exact ⟨fun j hj => rfl, rfl, rfl⟩
  | cons v rest ih =>
    simp only [List.foldl]
    have hpn := processNode_move0 p k v st hm (hnn st.rng.idx)
    have hseq : (processNode p k v st).rng.seq = st.rng.seq :=
      (processNode_basic p k v st).2
    have hnn2 : NonnegStream (processNode p k v st).rng.seq := by
      rw [hseq]; exact hnn
    have hrest := ih (processNode p k v st) hnn2
    refine ⟨?_, ?_, ?_⟩
    · intro j hj
      rw [hrest.1 j hj, hpn.2.1 j hj]
    · rw [hrest.2.1, hpn.2.2.1]
    · rw [hrest.2.2, hpn.2.2.2]

lemma performGraphIteration_move0 (p : Params) (k : Nat) (gs : List Community)
    (r : RState) (hm : p.move_probability = 0) (hnn : NonnegStream r.seq)
    (hk : k < gs.length) :
    (∀ j, j ≠ k → getCommunity (performGraphIteration p k gs r).1 j
      = getCommunity gs j) ∧
    Community.total (getCommunity (performGraphIteration p k gs r).1 k)
      = Community.total (getCommunity gs k) := by
  unfold performGraphIteration
  dsimp only
  have hfold := foldl_processNode_move0 p k
    ((getCommunity gs k).graph.ids)
    { graphs := gs, local_susceptible := (getCommunity gs k).susceptible,
      local_infected := (getCommunity gs k).infected,
      local_recovered := (getCommunity gs k).recovered,
      nodes_to_remove := [], rng := r } hm hnn
  rw [hfold.2.2]
  have hlen : (List.foldl (fun acc v => processNode p k v acc)
      { graphs := gs, local_susceptible := (getCommunity gs k).susceptible,
        local_infected := (getCommunity gs k).infected,
        local_recovered := (getCommunity gs k).recovered,
        nodes_to_remove := [], rng := r }
      ((getCommunity gs k).graph.ids)).graphs.length = gs.length :=
    (foldl_processNode_basic ..).1
  constructor
  · intro j hj
    rw [getCommunity_set_ne _ _ _ _ (Ne.symm hj)]
    show getCommunity (removeLoop k [] _).graphs j = _
    unfold removeLoop
    exact hfold.1 j hj
  · rw [getCommunity_set_self]
    · show ((removeLoop k [] _).local_susceptible
          + (removeLoop k [] _).local_infected)
          + (removeLoop k [] _).local_recovered = _
      unfold removeLoop
      exact hfold.2.1
    · show k < (removeLoop k [] _).graphs.length
      unfold removeLoop
      rw [hlen]
      exact hk

lemma foldl_processNode_frozen (p : Params) (k : Nat) (ids : List Nat)
    (st : ScanState) (hm : p.move_probability = 0) (hb : p.beta = 0)
    (hr : p.recovery = 0) (hnn : NonnegStream st.rng.seq) :
    (ids.foldl (fun acc v => processNode p k v acc) st)
      = { st with rng := (ids.foldl (fun acc v => processNode p k v acc) st).rng }
    := by
  induction ids generalizing st with
  | nil => rfl
  | cons v rest ih =>
    simp only [List.foldl]
    rw [processNode_frozen p k v st hm hb hr hnn]
    have hnn2 : NonnegStream (processNode p k v st).rng.seq := by
      rw [(processNode_basic p k v st).2]; exact hnn
    exact ih { st with rng := (processNode p k v st).rng } hnn2

lemma performGraphIteration_frozen (p : Params) (k : Nat) (gs : List Community)
    (r : RState) (hm : p.move_probability = 0) (hb : p.beta = 0)
    (hr : p.recovery = 0) (hnn : NonnegStream r.seq) :
    ∀ j, getCommunity (performGraphIteration p k gs r).1 j = getCommunity gs j := by
  intro j
  unfold performGraphIteration
  dsimp only
  rw [foldl_processNode_frozen p k _ _ hm hb hr hnn]
  show getCommunity ((removeLoop k [] _).graphs.set k _) j = _
  unfold removeLoop
  rw [getCommunity_set]
  by_cases hc : k = j ∧ k < gs.length
  · obtain ⟨rfl, h2⟩ := hc
    have hck : k = k ∧ k < gs.length := ⟨rfl, h2⟩
    rw [if_pos hck]
  · rw [if_neg hc]

lemma total_eq_of_counts_eq (c d : Community) (h : c.counts = d.counts) :
    c.total = d.total := by
  unfold Community.counts at h
  unfold Community.total
  have h1 : c.susceptible = d.susceptible := congrArg Prod.fst h
  have h2 : c.infected = d.infected := congrArg (fun x => x.2.1) h
  have h3 : c.recovered = d.recovered := congrArg (fun x => x.2.2) h
  rw [h1, h2, h3]

lemma updatePass_basic (p : Params) (ks : List Nat) (gs : List Community)
    (r : RState) (cs ci cr : Int) :
    (updatePass p ks gs r cs ci cr).graphs.length = gs.length ∧
    (updatePass p ks gs r cs ci cr).rng.seq = r.seq := by
  induction ks generalizing gs r cs ci cr with
  | nil => exact ⟨rfl, rfl⟩
  | cons k rest ih =>
    unfold updatePass
    dsimp only
    constructor
    · rw [(ih _ _ _ _ _).1, (performGraphIteration_basic p k gs r).1]
    · rw [(ih _ _ _ _ _).2, (performGraphIteration_basic p k gs r).2]

lemma updatePass_move0 (p : Params) (gs : List Community) (r : RState)
    (hm : p.move_probability = 0) (hnn : NonnegStream r.seq)
    (hlen : gs.length = 4) :
    (∀ j, j < 4 →
      Community.total
          (getCommunity (updatePass p [0, 1, 2, 3] gs r 0 0 0).graphs j)
        = Community.total (getCommunity gs j)) ∧
    (updatePass p [0, 1, 2, 3] gs r 0 0 0).curr_global_susceptible
      = (getCommunity (updatePass p [0, 1, 2, 3] gs r 0 0 0).graphs 0).susceptible
        + (getCommunity (updatePass p [0, 1, 2, 3] gs r 0 0 0).graphs 1).susceptible
        + (getCommunity (updatePass p [0, 1, 2, 3] gs r 0 0 0).graphs 2).susceptible
        + (getCommunity (updatePass p [0, 1, 2, 3] gs r 0 0 0).graphs 3).susceptible ∧
    (updatePass p [0, 1, 2, 3] gs r 0 0 0).curr_global_infected
      = (getCommunity (updatePass p [0, 1, 2, 3] gs r 0 0 0).graphs 0).infected
        + (getCommunity (updatePass p [0, 1, 2, 3] gs r 0 0 0).graphs 1).infected
        + (getCommunity (updatePass p [0, 1, 2, 3] gs r 0 0 0).graphs 2).infected
        + (getCommunity (updatePass p [0, 1, 2, 3] gs r 0 0 0).graphs 3).infected ∧
    (updatePass p [0, 1, 2, 3] gs r 0 0 0).curr_global_recovered
      = (getCommunity (updatePass p [0, 1, 2, 3] gs r 0 0 0).graphs 0).recovered
        + (getCommunity (updatePass p [0, 1, 2, 3] gs r 0 0 0).graphs 1).recovered
        + (getCommunity (updatePass p [0, 1, 2, 3] gs r 0 0 0).graphs 2).recovered
        + (getCommunity (updatePass p [0, 1, 2, 3] gs r 0 0 0).graphs 3).recovered := by
  have hb0 := performGraphIteration_basic p 0 gs r
  have h0 := performGraphIteration_move0 p 0 gs r hm hnn (by omega)
  set g1 := (performGraphIteration p 0 gs r).1 with hg1
  set r1 := (performGraphIteration p 0 gs r).2 with hr1
  have hlen1 : g1.length = 4 := by rw [hg1, hb0.1, hlen]
  have hnn1 : NonnegStream r1.seq := by rw [hr1, hb0.2]; exact hnn
  have hb1 := performGraphIteration_basic p 1 g1 r1
  have h1 := performGraphIteration_move0 p 1 g1 r1 hm hnn1 (by omega)
  set g2 := (performGraphIteration p 1 g1 r1).1 with hg2
  set r2 := (performGraphIteration p 1 g1 r1).2 with hr2
  have hlen2 : g2.length = 4 := by rw [hg2, hb1.1, hlen1]
  have hnn2 : NonnegStream r2.seq := by rw [hr2, hb1.2]; exact hnn1
  have hb2 := performGraphIteration_basic p 2 g2 r2
  have h2 := performGraphIteration_move0 p 2 g2 r2 hm hnn2 (by omega)
  set g3 := (performGraphIteration p 2 g2 r2).1 with hg3
  set r3 := (performGraphIteration p 2 g2 r2).2 with hr3
  have hlen3 : g3.length = 4 := by rw [hg3, hb2.1, hlen2]
  have hnn3 : NonnegStream r3.seq := by rw [hr3, hb2.2]; exact hnn2
  have hb3 := performGraphIteration_basic p 3 g3 r3
  have h3 := performGraphIteration_move0 p 3 g3 r3 hm hnn3 (by omega)
  set g4 := (performGraphIteration p 3 g3 r3).1 with hg4
  have hup : updatePass p [0, 1, 2, 3] gs r 0 0 0 =
      { graphs := g4, rng := (performGraphIteration p 3 g3 r3).2,
        curr_global_susceptible := 0 + (getCommunity g1 0).susceptible
          + (getCommunity g2 1).susceptible + (getCommunity g3 2).susceptible
          + (getCommunity g4 3).susceptible,
        curr_global_infected := 0 + (getCommunity g1 0).infected
          + (getCommunity g2 1).infected + (getCommunity g3 2).infected
          + (getCommunity g4 3).infected,
        curr_global_recovered := 0 + (getCommunity g1 0).recovered
          + (getCommunity g2 1).recovered + (getCommunity g3 2).recovered
          + (getCommunity g4 3).recovered } := by
    rfl
  rw [hup]
  dsimp only
  have e40 : getCommunity g4 0 = getCommunity g1 0 := by
    rw [h3.1 0 (by omega), h2.1 0 (by omega), h1.1 0 (by omega)]
  have e41 : getCommunity g4 1 = getCommunity g2 1 := by
    rw [h3.1 1 (by omega), h2.1 1 (by omega)]
  have e42 : getCommunity g4 2 = getCommunity g3 2 := by
    rw [h3.1 2 (by omega)]
  refine ⟨?_, ?_, ?_, ?_⟩
  · intro j hj
    interval_cases j
    · rw [e40, h0.2]
    · rw [e41, h1.2]
      rw [h0.1 1 (by omega)]
    · rw [e42, h2.2, h1.1 2 (by omega), h0.1 2 (by omega)]
    · rw [h3.2, h2.1 3 (by omega), h1.1 3 (by omega), h0.1 3 (by omega)]
  · rw [e40, e41, e42]
    ring
  · rw [e40, e41, e42]
    ring
  · rw [e40, e41, e42]
    ring

lemma susceptible_eq_of_counts_eq (c d : Community) (h : c.counts = d.counts) :
    c.susceptible = d.susceptible := congrArg Prod.fst h

lemma infected_eq_of_counts_eq (c d : Community) (h : c.counts = d.counts) :
    c.infected = d.infected := congrArg (fun x => x.2.1) h

lemma recovered_eq_of_counts_eq (c d : Community) (h : c.counts = d.counts) :
    c.recovered = d.recovered := congrArg (fun x => x.2.2) h

lemma step_move0 (p : Params) (t : Nat) (s : SimState)
    (hm : p.move_probability = 0) (hnn : NonnegStream s.rng.seq)
    (hlen : s.graphs.length = 4) :
    (∀ k, k < 4 → Community.total (getCommunity (step p t s).graphs k)
      = Community.total (getCommunity s.graphs k)) ∧
    (step p t s).global_susceptible = s.global_susceptible ++
      [(getCommunity (step p t s).graphs 0).susceptible
        + (getCommunity (step p t s).graphs 1).susceptible
        + (getCommunity (step p t s).graphs 2).susceptible
        + (getCommunity (step p t s).graphs 3).susceptible] ∧
    (step p t s).global_infected = s.global_infected ++
      [(getCommunity (step p t s).graphs 0).infected
        + (getCommunity (step p t s).graphs 1).infected
        + (getCommunity (step p t s).graphs 2).infected
        + (getCommunity (step p t s).graphs 3).infected] ∧
    (step p t s).global_recovered = s.global_recovered ++
      [(getCommunity (step p t s).graphs 0).recovered
        + (getCommunity (step p t s).graphs 1).recovered
        + (getCommunity (step p t s).graphs 2).recovered
        + (getCommunity (step p t s).graphs 3).recovered] := by
  have hu := updatePass_move0 p s.graphs s.rng hm hnn hlen
  unfold step
  dsimp only
  have hreg := fun j => regenPass_counts p.gamma [0, 1, 2, 3]
    (updatePass p [0, 1, 2, 3] s.graphs s.rng 0 0 0).graphs
    (updatePass p [0, 1, 2, 3] s.graphs s.rng 0 0 0).rng j
  refine ⟨?_, ?_, ?_, ?_⟩
  · intro k hk
    rw [total_eq_of_counts_eq _ _ (hreg k).1]
    exact hu.1 k hk
  · rw [susceptible_eq_of_counts_eq _ _ (hreg 0).1,
      susceptible_eq_of_counts_eq _ _ (hreg 1).1,
      susceptible_eq_of_counts_eq _ _ (hreg 2).1,
      susceptible_eq_of_counts_eq _ _ (hreg 3).1]
    rw [hu.2.1]
  · rw [infected_eq_of_counts_eq _ _ (hreg 0).1,
      infected_eq_of_counts_eq _ _ (hreg 1).1,
      infected_eq_of_counts_eq _ _ (hreg 2).1,
      infected_eq_of_counts_eq _ _ (hreg 3).1]
    rw [hu.2.2.1]
  · rw [recovered_eq_of_counts_eq _ _ (hreg 0).1,
      recovered_eq_of_counts_eq _ _ (hreg 1).1,
      recovered_eq_of_counts_eq _ _ (hreg 2).1,
      recovered_eq_of_counts_eq _ _ (hreg 3).1]
    rw [hu.2.2.2]

lemma step_basic (p : Params) (t : Nat) (s : SimState) :
    (step p t s).graphs.length = s.graphs.length ∧
    (step p t s).rng.seq = s.rng.seq ∧
    (step p t s).global_susceptible.length = s.global_susceptible.length + 1 ∧
    (step p t s).global_infected.length = s.global_infected.length + 1 ∧
    (step p t s).global_recovered.length = s.global_recovered.length + 1 := by
  unfold step
  dsimp only
  have hreg := fun j => regenPass_counts p.gamma [0, 1, 2, 3]
    (updatePass p [0, 1, 2, 3] s.graphs s.rng 0 0 0).graphs
    (updatePass p [0, 1, 2, 3] s.graphs s.rng 0 0 0).rng j
  have hub := updatePass_basic p [0, 1, 2, 3] s.graphs s.rng 0 0 0
  refine ⟨?_, ?_, by simp, by simp, by simp⟩
  · rw [(hreg 0).2.1, hub.1]
  · rw [(hreg 0).2.2, hub.2]

lemma initState_basic (n : Int) (gamma : ℚ) (r : RState) :
    (initState n gamma r).graphs.length = 4 ∧
    (initState n gamma r).rng.seq = r.seq := by
  unfold initState initCommunity
  refine ⟨rfl, ?_⟩
  dsimp only
  rw [generateErdosRenyi_seq, generateErdosRenyi_seq, generateErdosRenyi_seq,
    generateErdosRenyi_seq]

lemma initState_counts (n : Int) (gamma : ℚ) (r : RState) (k : Nat) (hk : k < 4) :
    (getCommunity (initState n gamma r).graphs k).counts = (n - 1, 1, 0) := by
  interval_cases k <;> rfl

lemma run_zero (p : Params) (n : Int) (r : RState) :
    run p n 0 r = initState n p.gamma r := rfl

lemma run_succ (p : Params) (n : Int) (t : Nat) (r : RState) :
    run p n (t + 1) r = step p (t + 1) (run p n t r) := by
  unfold run
  rw [List.range_succ, List.foldl_append]
  rfl

lemma run_basic (p : Params) (n : Int) (t : Nat) (r : RState) :
    (run p n t r).graphs.length = 4 ∧
    (run p n t r).rng.seq = r.seq ∧
    (run p n t r).global_susceptible.length = t + 1 ∧
    (run p n t r).global_infected.length = t + 1 ∧
    (run p n t r).global_recovered.length = t + 1 := by
  induction t with
  | zero =>
    refine ⟨(initState_basic n p.gamma r).1, (initState_basic n p.gamma r).2,
      rfl, rfl, rfl⟩
  | succ t ih =>
    rw [run_succ]
    have hs := step_basic p (t + 1) (run p n t r)
    refine ⟨?_, ?_, ?_, ?_, ?_⟩
    · rw [hs.1, ih.1]
    · rw [hs.2.1, ih.2.1]
    · rw [hs.2.2.1, ih.2.2.1]
    · rw [hs.2.2.2.1, ih.2.2.2.1]
    · rw [hs.2.2.2.2, ih.2.2.2.2]

/-- C7: with moveProbability zero, the total population of every community equals
its value at t = 0 at every timestep, for every non-negative random tape. -/
theorem community_total_invariant_move_zero (p : Params) (n : Int) (r : RState)
    (t k : Nat) (hm : p.move_probability = 0) (hnn : NonnegStream r.seq)
    (hk : k < 4) :
    Community.total (getCommunity (run p n t r).graphs k)
      = Community.total (getCommunity (initState n p.gamma r).graphs k) := by
  induction t with
  | zero => rfl
  | succ t ih =>
    rw [run_succ]
    have hb := run_basic p n t r
    have hs := step_move0 p (t + 1) (run p n t r) hm
      (by rw [hb.2.1]; exact hnn) hb.1
    rw [hs.1 k hk]
    exact ih

/-- Zero-rate parameters used by several witnesses. -/
def pZero : Params := { gamma := 0, beta := 0, recovery := 0, move_probability := 0 }

/-- Constant one-half tape used by several witnesses. -/
def tapeHalf : RState := ⟨fun _ => mkRat 1 2, 0⟩

lemma tapeHalf_nonneg : NonnegStream tapeHalf.seq := fun i => by
  show (0 : ℚ) ≤ mkRat 1 2
  norm_num

/-- Witness for C7 at the zero-rate parameters, population 1, constant tape,
timestep 1 and community 0. -/
theorem community_total_invariant_move_zero_witness :
    Community.total (getCommunity (run pZero 1 1 tapeHalf).graphs 0)
      = Community.total (getCommunity (initState 1 pZero.gamma tapeHalf).graphs 0)
    :=
  community_total_invariant_move_zero pZero 1 tapeHalf 1 0 rfl
    tapeHalf_nonneg (by omega)

lemma getD_concat_self (xs : List Int) (v : Int) :
    (xs ++ [v]).getD xs.length 0 = v := by
  rw [List.getD_eq_getElem?_getD, List.getElem?_concat_length]
  rfl

/-- C2 as amended: the snapshot is accumulated interleaved with the update pass
(each community read right after its own update); when moveProbability is zero no
community changes after its own update, so the recorded entry of timestep t equals
the exact sum of the per-community counts after all four updates, as the claim
states. -/
theorem globalSnapshot_matches_sum_move_zero (p : Params) (n : Int) (r : RState)
    (t : Nat) (hm : p.move_probability = 0) (hnn : NonnegStream r.seq) :
    (run p n t r).global_susceptible.getD t 0
      = (getCommunity (run p n t r).graphs 0).susceptible
        + (getCommunity (run p n t r).graphs 1).susceptible
        + (getCommunity (run p n t r).graphs 2).susceptible
        + (getCommunity (run p n t r).graphs 3).susceptible ∧
    (run p n t r).global_infected.getD t 0
      = (getCommunity (run p n t r).graphs 0).infected
        + (getCommunity (run p n t r).graphs 1).infected
        + (getCommunity (run p n t r).graphs 2).infected
        + (getCommunity (run p n t r).graphs 3).infected ∧
    (run p n t r).global_recovered.getD t 0
      = (getCommunity (run p n t r).graphs 0).recovered
        + (getCommunity (run p n t r).graphs 1).recovered
        + (getCommunity (run p n t r).graphs 2).recovered
        + (getCommunity (run p n t r).graphs 3).recovered := by
  cases t with
  | zero =>
    have hc := fun k hk => initState_counts n p.gamma r k hk
    refine ⟨?_, ?_, ?_⟩
    · have h0 := congrArg Prod.fst (hc 0 (by omega))
      have h1 := congrArg Prod.fst (hc 1 (by omega))
      have h2 := congrArg Prod.fst (hc 2 (by omega))
      have h3 := congrArg Prod.fst (hc 3 (by omega))
      show (4 : Int) * (n - 1) = _
      rw [show (getCommunity (run p n 0 r).graphs 0).susceptible = n - 1 from h0,
        show (getCommunity (run p n 0 r).graphs 1).susceptible = n - 1 from h1,
        show (getCommunity (run p n 0 r).graphs 2).susceptible = n - 1 from h2,
        show (getCommunity (run p n 0 r).graphs 3).susceptible = n - 1 from h3]
      ring
    · have h0 := congrArg (fun x => x.2.1) (hc 0 (by omega))
      have h1 := congrArg (fun x => x.2.1) (hc 1 (by omega))
      have h2 := congrArg (fun x => x.2.1) (hc 2 (by omega))
      have h3 := congrArg (fun x => x.2.1) (hc 3 (by omega))
      show (4 : Int) = _
      rw [show (getCommunity (run p n 0 r).graphs 0).infected = 1 from h0,
        show (getCommunity (run p n 0 r).graphs 1).infected = 1 from h1,
        show (getCommunity (run p n 0 r).graphs 2).infected = 1 from h2,
        show (getCommunity (run p n 0 r).graphs 3).infected = 1 from h3]
      ring
    · have h0 := congrArg (fun x => x.2.2) (hc 0 (by omega))
      have h1 := congrArg (fun x => x.2.2) (hc 1 (by omega))
      have h2 := congrArg (fun x => x.2.2) (hc 2 (by omega))
      have h3 := congrArg (fun x => x.2.2) (hc 3 (by omega))
      show (0 : Int) = _
      rw [show (getCommunity (run p n 0 r).graphs 0).recovered = 0 from h0,
        show (getCommunity (run p n 0 r).graphs 1).recovered = 0 from h1,
        show (getCommunity (run p n 0 r).graphs 2).recovered = 0 from h2,
        show (getCommunity (run p n 0 r).graphs 3).recovered = 0 from h3]
      ring
  | succ t =>
    rw [run_succ]
    have hb := run_basic p n t r
    have hs := step_move0 p (t + 1) (run p n t r) hm
      (by rw [hb.2.1]; exact hnn) hb.1
    refine ⟨?_, ?_, ?_⟩
    · rw [hs.2.1]
      have hl : t + 1 = (run p n t r).global_susceptible.length := hb.2.2.1.symm
      rw [hl, getD_concat_self]
    · rw [hs.2.2.1]
      have hl : t + 1 = (run p n t r).global_infected.length := hb.2.2.2.1.symm
      rw [hl, getD_concat_self]
    · rw [hs.2.2.2]
      have hl : t + 1 = (run p n t r).global_recovered.length := hb.2.2.2.2.symm
      rw [hl, getD_concat_self]

/-- Witness for the amended C2 at the zero-rate parameters, population 1, constant
tape, timestep 1. -/
theorem globalSnapshot_matches_sum_move_zero_witness :
    (run pZero 1 1 tapeHalf).global_susceptible.getD 1 0
      = (getCommunity (run pZero 1 1 tapeHalf).graphs 0).susceptible
        + (getCommunity (run pZero 1 1 tapeHalf).graphs 1).susceptible
        + (getCommunity (run pZero 1 1 tapeHalf).graphs 2).susceptible
        + (getCommunity (run pZero 1 1 tapeHalf).graphs 3).susceptible :=
  (globalSnapshot_matches_sum_move_zero pZero 1 tapeHalf 1 rfl tapeHalf_nonneg).1

lemma updatePass_frozen (p : Params) (hm : p.move_probability = 0)
    (hb : p.beta = 0) (hr : p.recovery = 0) :
    ∀ (ks : List Nat) (gs : List Community) (r : RState) (cs ci cr : Int),
      NonnegStream r.seq →
      ∀ j, getCommunity (updatePass p ks gs r cs ci cr).graphs j
        = getCommunity gs j := by
  intro ks
  induction ks with
  | nil => intro gs r cs ci cr hnn j; rfl
  | cons k rest ih =>
    intro gs r cs ci cr hnn j
    unfold updatePass
    dsimp only
    have hnn2 : NonnegStream (performGraphIteration p k gs r).2.seq := by
      rw [(performGraphIteration_basic p k gs r).2]; exact hnn
    rw [ih _ _ _ _ _ hnn2 j]
    exact performGraphIteration_frozen p k gs r hm hb hr hnn j

lemma step_frozen_counts (p : Params) (t : Nat) (s : SimState)
    (hm : p.move_probability = 0) (hb : p.beta = 0) (hr : p.recovery = 0)
    (hnn : NonnegStream s.rng.seq) :
    ∀ j, (getCommunity (step p t s).graphs j).counts
      = (getCommunity s.graphs j).counts := by
  intro j
  unfold step
  dsimp only
  have hreg := regenPass_counts p.gamma [0, 1, 2, 3]
    (updatePass p [0, 1, 2, 3] s.graphs s.rng 0 0 0).graphs
    (updatePass p [0, 1, 2, 3] s.graphs s.rng 0 0 0).rng j
  rw [hreg.1, updatePass_frozen p hm hb hr [0, 1, 2, 3] s.graphs s.rng 0 0 0 hnn j]

/-- C5 as amended: with infection and recovery rates zero and, additionally,
moveProbability zero, every community keeps its t = 0 compartment counts at every
timestep and the recorded global series stay constant; without the moveProbability
condition the counterexample shows migration changes the counts. -/
theorem counts_frozen_when_all_rates_zero (p : Params) (n : Int) (r : RState)
    (t : Nat) (hbeta : p.beta = 0) (hrec : p.recovery = 0)
    (hm : p.move_probability = 0) (hnn : NonnegStream r.seq) :
    (∀ k, k < 4 →
      (getCommunity (run p n t r).graphs k).counts = (n - 1, 1, 0)) ∧
    (run p n t r).global_susceptible = List.replicate (t + 1) (4 * (n - 1)) ∧
    (run p n t r).global_infected = List.replicate (t + 1) 4 ∧
    (run p n t r).global_recovered = List.replicate (t + 1) 0 := by
  induction t with
  | zero =>
    exact ⟨fun k hk => initState_counts n p.gamma r k hk, rfl, rfl, rfl⟩
  | succ t ih =>
    rw [run_succ]
    have hbas := run_basic p n t r
    have hnns : NonnegStream (run p n t r).rng.seq := by
      rw [hbas.2.1]; exact hnn
    have hcnt := step_frozen_counts p (t + 1) (run p n t r) hm hbeta hrec hnns
    have hkc : ∀ k, k < 4 →
        (getCommunity (step p (t + 1) (run p n t r)).graphs k).counts
          = (n - 1, 1, 0) := by
      intro k hk
      rw [hcnt k]
      exact ih.1 k hk
    have hs := step_move0 p (t + 1) (run p n t r) hm hnns hbas.1
    have h0 := hkc 0 (by omega)
    have h1 := hkc 1 (by omega)
    have h2 := hkc 2 (by omega)
    have h3 := hkc 3 (by omega)
    simp only [Community.counts, Prod.mk.injEq] at h0 h1 h2 h3
    refine ⟨hkc, ?_, ?_, ?_⟩
    · rw [hs.2.1, ih.2.1, h0.1, h1.1, h2.1, h3.1]
      have harith : n - 1 + (n - 1) + (n - 1) + (n - 1) = 4 * (n - 1) := by ring
      rw [harith]
      simp [List.replicate_succ', List.append_assoc]
    · rw [hs.2.2.1, ih.2.2.1, h0.2.1, h1.2.1, h2.2.1, h3.2.1]
      norm_num
      simp [List.replicate_succ', List.append_assoc]
    · rw [hs.2.2.2, ih.2.2.2, h0.2.2, h1.2.2, h2.2.2, h3.2.2]
      norm_num
      simp [List.replicate_succ', List.append_assoc]

/-- Witness for the amended C5 at the zero-rate parameters, population 2, constant
tape, timestep 2. -/
theorem counts_frozen_when_all_rates_zero_witness :
    (∀ k, k < 4 →
      (getCommunity (run pZero 2 2 tapeHalf).graphs k).counts = (2 - 1, 1, 0)) ∧
    (run pZero 2 2 tapeHalf).global_susceptible
      = List.replicate 3 (4 * (2 - 1)) ∧
    (run pZero 2 2 tapeHalf).global_infected = List.replicate 3 4 ∧
    (run pZero 2 2 tapeHalf).global_recovered = List.replicate 3 0 :=
  counts_frozen_when_all_rates_zero pZero 2 tapeHalf 2 rfl rfl rfl tapeHalf_nonneg

lemma addCount_total (c : Community) (l : Label) :
    (c.addCount l).total = c.total + 1 := by
  cases l <;> simp [Community.addCount, Community.total] <;> ring

lemma addCount_graph (c : Community) (l : Label) :
    (c.addCount l).graph = c.graph := by
  cases l <;> rfl

lemma nodesLen_setGraphOf (gs : List Community) (k : Nat) (g : Graph) (j : Nat) :
    (getCommunity (setGraphOf gs k g) j).graph.nodes.length
      = if k = j ∧ k < gs.length then g.nodes.length
        else (getCommunity gs j).graph.nodes.length := by
  unfold setGraphOf
  rw [getCommunity_set]
  split <;> rfl

/-- Effective bookkeeping total of community `j` while community `k` is being
scanned: community `k` is tracked in the local counters, the others in the stored
dictionary entries. -/
def effTotal (k : Nat) (st : ScanState) (j : Nat) : Int :=
  if j = k then st.local_susceptible + st.local_infected + st.local_recovered
  else Community.total (getCommunity st.graphs j)

/-- Slack between the effective bookkeeping total and the physical node count of
community `j` during the scan of community `k`. -/
def scanSlack (k : Nat) (st : ScanState) (j : Nat) : Int :=
  effTotal k st j - (getCommunity st.graphs j).graph.nodes.length

/-- Slack between bookkeeping total and node count of community `j` between
updates. -/
def cdiff (gs : List Community) (j : Nat) : Int :=
  Community.total (getCommunity gs j) - (getCommunity gs j).graph.nodes.length

lemma processNode_scanSlack (p : Params) (k v : Nat) (st : ScanState) (j : Nat) :
    scanSlack k st j ≤ scanSlack k (processNode p k v st) j := by
  unfold processNode
  dsimp only [RState.draw]
  by_cases hmv : st.rng.seq st.rng.idx < p.move_probability
  · rw [if_pos hmv]
    rcases hfc : findContextToMoveTo (k + 1) ⟨st.rng.seq, st.rng.idx + 1⟩
      with ⟨o, r2⟩
    cases o with
    | none => exact le_of_eq rfl
    | some c =>
      cases hlb : (getCommunity st.graphs k).graph.label v with
      | none => exact le_of_eq rfl
      | some lbl =>
        dsimp only
        have hmem := findContextToMoveTo_mem (k + 1)
          ⟨st.rng.seq, st.rng.idx + 1⟩ c (by rw [hfc])
        have hc1 : 1 ≤ c := by rcases hmem.1 with h | h | h | h <;> omega
        have hdk : c - 1 ≠ k := by
          intro h
          exact hmem.2 (by omega)
        unfold scanSlack effTotal
        dsimp only
        by_cases hj : j = c - 1
        · subst hj
          rw [if_neg hdk, if_neg hdk]
          rw [getCommunity_set]
          by_cases hcl : c - 1 = c - 1 ∧ c - 1 < st.graphs.length
          · rw [if_pos hcl, addCount_total, addCount_graph]
            dsimp only
            have hlen : ((getCommunity st.graphs (c - 1)).graph.addNode v
                lbl).nodes.length
                ≤ (getCommunity st.graphs (c - 1)).graph.nodes.length + 1 := by
              rw [addNode_length]
              split <;> omega
            have htot : Community.total { getCommunity st.graphs (c - 1) with
                graph := (getCommunity st.graphs (c - 1)).graph.addNode v lbl }
                = Community.total (getCommunity st.graphs (c - 1)) := rfl
            rw [htot]
            omega
          · rw [if_neg hcl]
        · rw [getCommunity_set_ne _ _ _ _ (fun h => hj h.symm)]
  · rw [if_neg hmv]
    cases hlb : (getCommunity st.graphs k).graph.label v with
    | none => exact le_of_eq rfl
    | some lbl =>
      cases lbl with
      | infected =>
        dsimp only
        by_cases h2 : st.rng.seq (st.rng.idx + 1) < p.recovery
        · rw [if_pos h2]
          unfold scanSlack effTotal
          dsimp only
          rw [nodesLen_setGraphOf]
          by_cases hj : j = k
          · rw [hj, if_pos rfl, if_pos rfl]
            split
            · rw [setLabel_length]
              omega
            · omega
          · rw [if_neg hj, if_neg hj,
              getCommunity_setGraphOf_ne _ _ _ _ (Ne.symm hj),
              if_neg (fun h => hj h.1.symm)]
        · rw [if_neg h2]
          exact le_of_eq rfl
      | recovered =>
        dsimp only
        by_cases h2 : st.rng.seq (st.rng.idx + 1) < p.r_to_s
        · rw [if_pos h2]
          unfold scanSlack effTotal
          dsimp only
          rw [nodesLen_setGraphOf]
          by_cases hj : j = k
          · rw [hj, if_pos rfl, if_pos rfl]
            split
            · rw [setLabel_length]
              omega
            · omega
          · rw [if_neg hj, if_neg hj,
              getCommunity_setGraphOf_ne _ _ _ _ (Ne.symm hj),
              if_neg (fun h => hj h.1.symm)]
        · rw [if_neg h2]
          exact le_of_eq rfl
      | susceptible =>
        dsimp only
        have hg := neighborLoop_graphs p k v
          ((getCommunity st.graphs k).graph.neighbors v)
          { st with rng := ⟨st.rng.seq, st.rng.idx + 1⟩ }
        have h4 := hg.2.2.2.1
        have h3 := hg.2.2.1
        dsimp only at h3 h4
        rcases neighborLoop_newly p k v
            ((getCommunity st.graphs k).graph.neighbors v)
            { st with rng := ⟨st.rng.seq, st.rng.idx + 1⟩ } with hn | hn <;>
          rw [hn] <;> simp only [List.foldl]
        · apply le_of_eq
          unfold scanSlack effTotal
          rw [hg.1]
          dsimp only
          by_cases hj : j = k
          · rw [if_pos hj, if_pos hj]
            omega
          · rw [if_neg hj, if_neg hj]
        · apply le_of_eq
          unfold scanSlack effTotal
          dsimp only
          rw [hg.1]
          dsimp only
          rw [nodesLen_setGraphOf]
          have hlen2 : (if k = j ∧ k < st.graphs.length
              then (((getCommunity st.graphs k).graph).setLabel v
                Label.infected).nodes.length
              else (getCommunity st.graphs j).graph.nodes.length)
              = (getCommunity st.graphs j).graph.nodes.length := by
            split
            · rename_i hcond
              rw [setLabel_length, hcond.1]
            · rfl
          rw [hlen2]
          by_cases hj : j = k
          · rw [if_pos hj, if_pos hj]
            omega
          · rw [if_neg hj, if_neg hj,
              total_eq_of_counts_eq _ _ (counts_setGraphOf st.graphs k j _)]

lemma getCommunity_out_of_range (gs : List Community) (k : Nat)
    (h : ¬ k < gs.length) : getCommunity gs k = default := by
  unfold getCommunity
  rw [List.getD_eq_getElem?_getD, List.getElem?_eq_none (Nat.le_of_not_lt h)]
  rfl

lemma removeLoop_scanSlack (k : Nat) (vs : List Nat) (st : ScanState) (j : Nat) :
    scanSlack k st j ≤ scanSlack k (removeLoop k vs st) j := by
  induction vs generalizing st with
  | nil => exact le_rfl
  | cons v rest ih =>
    unfold removeLoop
    dsimp only
    rcases hl : (getCommunity st.graphs k).graph.label v with _ | l
    · refine le_trans ?_ (ih _)
      apply le_of_eq
      unfold scanSlack effTotal
      dsimp only
      rw [nodesLen_setGraphOf]
      have hnone := removeNode_none (getCommunity st.graphs k).graph v hl
      have hlen2 : (if k = j ∧ k < st.graphs.length
          then ((getCommunity st.graphs k).graph.removeNode v).nodes.length
          else (getCommunity st.graphs j).graph.nodes.length)
          = (getCommunity st.graphs j).graph.nodes.length := by
        split
        · rename_i hcond
          rw [congrArg List.length hnone, hcond.1]
        · rfl
      rw [hlen2]
      by_cases hj : j = k
      · rw [if_pos hj, if_pos hj]
      · rw [if_neg hj, if_neg hj,
          total_eq_of_counts_eq _ _ (counts_setGraphOf st.graphs k j _)]
    · have hk : k < st.graphs.length := by
        by_contra hcon
        rw [getCommunity_out_of_range st.graphs k hcon] at hl
        have hde : (default : Community).graph.label v = none := rfl
        rw [hde] at hl
        exact Option.noConfusion hl
      have hrl := removeNode_length_lt (getCommunity st.graphs k).graph v l hl
      cases l <;> simp only [hl] <;> refine le_trans ?_ (ih _) <;>
        · unfold scanSlack effTotal
          dsimp only
          rw [nodesLen_setGraphOf]
          by_cases hj : j = k
          · rw [hj, if_pos rfl, if_pos rfl, if_pos (And.intro rfl hk)]
            omega
          · rw [if_neg hj, if_neg hj,
              total_eq_of_counts_eq _ _ (counts_setGraphOf st.graphs k j _),
              if_neg (fun h => hj h.1.symm)]

lemma foldl_processNode_scanSlack (p : Params) (k : Nat) (ids : List Nat)
    (st : ScanState) (j : Nat) :
    scanSlack k st j ≤ scanSlack k
      (ids.foldl (fun acc v => processNode p k v acc) st) j := by
  induction ids generalizing st with
  | nil => exact le_rfl
  | cons v rest ih =>
    simp only [List.foldl]
    exact le_trans (processNode_scanSlack p k v st j) (ih _)

lemma writeBack_cdiff (k : Nat) (st : ScanState) (j : Nat)
    (hk : k < st.graphs.length) :
    scanSlack k st j = cdiff (st.graphs.set k
      { getCommunity st.graphs k with
        susceptible := st.local_susceptible,
        infected := st.local_infected,
        recovered := st.local_recovered }) j := by
  unfold cdiff scanSlack effTotal
  by_cases hj : j = k
  · rw [hj, if_pos rfl, getCommunity_set_self _ _ _ hk]
    exact rfl
  · rw [if_neg hj, getCommunity_set_ne _ _ _ _ (fun h => hj h.symm)]

lemma performGraphIteration_cdiff (p : Params) (k : Nat) (gs : List Community)
    (r : RState) (j : Nat) (hk : k < gs.length) :
    cdiff gs j ≤ cdiff (performGraphIteration p k gs r).1 j := by
  unfold performGraphIteration
  dsimp only
  have hbase : cdiff gs j = scanSlack k
      { graphs := gs, local_susceptible := (getCommunity gs k).susceptible,
        local_infected := (getCommunity gs k).infected,
        local_recovered := (getCommunity gs k).recovered,
        nodes_to_remove := [], rng := r } j := by
    unfold cdiff scanSlack effTotal
    dsimp only
    by_cases hj : j = k
    · rw [hj, if_pos rfl]
      rfl
    · rw [if_neg hj]
  rw [hbase]
  refine le_trans (foldl_processNode_scanSlack p k
    ((getCommunity gs k).graph.ids)
    { graphs := gs, local_susceptible := (getCommunity gs k).susceptible,
      local_infected := (getCommunity gs k).infected,
      local_recovered := (getCommunity gs k).recovered,
      nodes_to_remove := [], rng := r } j) ?_
  refine le_trans (removeLoop_scanSlack k
    (List.foldl (fun acc v => processNode p k v acc)
      { graphs := gs, local_susceptible := (getCommunity gs k).susceptible,
        local_infected := (getCommunity gs k).infected,
        local_recovered := (getCommunity gs k).recovered,
        nodes_to_remove := [], rng := r }
      ((getCommunity gs k).graph.ids)).nodes_to_remove
    (List.foldl (fun acc v => processNode p k v acc)
      { graphs := gs, local_susceptible := (getCommunity gs k).susceptible,
        local_infected := (getCommunity gs k).infected,
        local_recovered := (getCommunity gs k).recovered,
        nodes_to_remove := [], rng := r }
      ((getCommunity gs k).graph.ids)) j) ?_
  apply le_of_eq
  apply writeBack_cdiff
  rw [(removeLoop_basic _ _ _).2.1, (foldl_processNode_basic ..).1]
  exact hk

lemma updatePass_cdiff (p : Params) :
    ∀ (ks : List Nat) (gs : List Community) (r : RState) (cs ci cr : Int),
      (∀ k, k ∈ ks → k < gs.length) →
      ∀ j, cdiff gs j ≤ cdiff (updatePass p ks gs r cs ci cr).graphs j := by
  intro ks
  induction ks with
  | nil => intro gs r cs ci cr hks j; exact le_rfl
  | cons k rest ih =>
    intro gs r cs ci cr hks j
    unfold updatePass
    dsimp only
    refine le_trans
      (performGraphIteration_cdiff p k gs r j (hks k (by simp))) ?_
    apply ih
    intro k2 hk2
    rw [(performGraphIteration_basic p k gs r).1]
    exact hks k2 (by simp [hk2])

lemma regenPass_untouched (gamma : ℚ) :
    ∀ (ks : List Nat) (gs : List Community) (r : RState) (j : Nat), j ∉ ks →
      getCommunity (regenPass gamma ks gs r).1 j = getCommunity gs j := by
  intro ks
  induction ks with
  | nil => intro gs r j hj; rfl
  | cons k rest ih =>
    intro gs r j hj
    unfold regenPass
    dsimp only
    rw [ih _ _ j (fun h => hj (List.mem_cons_of_mem k h))]
    exact getCommunity_set_ne _ _ _ _
      (fun h => hj (h ▸ List.mem_cons_self k rest))

lemma regenPass_fix (gamma : ℚ) :
    ∀ (ks : List Nat) (gs : List Community) (r : RState) (j : Nat),
      ks.Nodup → j ∈ ks → j < gs.length →
      0 ≤ Community.total (getCommunity gs j) →
      ((getCommunity (regenPass gamma ks gs r).1 j).graph.nodes.length : Int)
        = Community.total (getCommunity (regenPass gamma ks gs r).1 j) := by
  intro ks
  induction ks with
  | nil => intro gs r j hnd hj; exact absurd hj (List.not_mem_nil j)
  | cons k rest ih =>
    intro gs r j hnd hj hlen htot
    unfold regenPass
    dsimp only
    by_cases hjr : j ∈ rest
    · have hjk : j ≠ k := by
        intro h
        exact (List.nodup_cons.mp hnd).1 (h ▸ hjr)
      refine ih _ _ j (List.nodup_cons.mp hnd).2 hjr ?_ ?_
      · rw [List.length_set]
        exact hlen
      · rw [getCommunity_set_ne _ _ _ _ (fun h => hjk h.symm)]
        exact htot
    · have hjk : j = k := by
        rcases List.mem_cons.mp hj with h | h
        · exact h
        · exact absurd h hjr
      subst hjk
      rw [regenPass_untouched gamma rest _ _ j hjr]
      rw [getCommunity_set_self _ _ _ hlen]
      dsimp only
      rw [generateErdosRenyi_nodes_length]
      show ((Community.total (getCommunity gs j)).toNat : Int) = _
      rw [Int.toNat_of_nonneg htot]
      rfl

lemma step_cdiff_zero (p : Params) (t : Nat) (s : SimState)
    (hlen : s.graphs.length = 4)
    (hpre : ∀ j, j < 4 → cdiff s.graphs j = 0) :
    ∀ j, j < 4 → cdiff (step p t s).graphs j = 0 := by
  intro j hj
  unfold step
  dsimp only
  have hu : 0 ≤ cdiff
      (updatePass p [0, 1, 2, 3] s.graphs s.rng 0 0 0).graphs j := by
    rw [← hpre j hj]
    refine updatePass_cdiff p [0, 1, 2, 3] s.graphs s.rng 0 0 0 ?_ j
    intro k hk
    rw [hlen]
    simp only [List.mem_cons, List.mem_singleton, List.not_mem_nil,
      or_false] at hk
    omega
  have hulen := updatePass_basic p [0, 1, 2, 3] s.graphs s.rng 0 0 0
  have htot : 0 ≤ Community.total
      (getCommunity (updatePass p [0, 1, 2, 3] s.graphs s.rng 0 0 0).graphs j) := by
    unfold cdiff at hu
    have hn : (0 : Int) ≤ ((getCommunity
        (updatePass p [0, 1, 2, 3] s.graphs s.rng 0 0 0).graphs
        j).graph.nodes.length : Int) := Int.natCast_nonneg _
    omega
  have hfix := regenPass_fix p.gamma [0, 1, 2, 3]
    (updatePass p [0, 1, 2, 3] s.graphs s.rng 0 0 0).graphs
    (updatePass p [0, 1, 2, 3] s.graphs s.rng 0 0 0).rng j
    (by decide) (by interval_cases j <;> simp)
    (by rw [hulen.1, hlen]; exact hj) htot
  unfold cdiff
  omega

/-- C3: after every timestep of every run with a valid population, each community's
stored susceptible + infected + recovered total equals the number of nodes of its
regenerated contact graph. -/
theorem population_count_matches_graph (p : Params) (n : Int) (r : RState)
    (t k : Nat) (hn : 0 ≤ n) (hk : k < 4) :
    ((getCommunity (run p n t r).graphs k).graph.nodes.length : Int)
      = Community.total (getCommunity (run p n t r).graphs k) := by
  have hrun : ∀ u, ∀ j, j < 4 → cdiff (run p n u r).graphs j = 0 := by
    intro u
    induction u with
    | zero =>
      intro j hj
      unfold cdiff
      have hne : (erNodes (n - 1) 1 0).length = ((n - 1) + 1 + 0).toNat := by
        unfold erNodes
        simp
      interval_cases j <;>
        · show (n - 1 + 1 + 0 : Int) - ((erNodes (n - 1) 1 0).length : Int) = 0
          rw [hne]
          omega
    | succ u ih =>
      rw [run_succ]
      exact step_cdiff_zero p (u + 1) (run p n u r) (run_basic p n u r).1 ih
  have hthis := hrun t k hk
  unfold cdiff at hthis
  omega

/-- Witness for C3 at the half-rate parameters, population 2, the collision tape
and timestep 2, community 1. -/
theorem population_count_matches_graph_witness :
    (0 ≤ (2 : Int)) ∧ ((1 : Nat) < 4) ∧
    (((getCommunity (run pHalf 2 2 tapeCollision).graphs 1).graph.nodes.length
        : Int)
      = Community.total (getCommunity (run pHalf 2 2 tapeCollision).graphs 1)) :=
  ⟨by norm_num, by norm_num,
    population_count_matches_graph pHalf 2 tapeCollision 2 1 (by norm_num)
      (by norm_num)⟩

/-- Unique node ids, an invariant of every networkx graph. -/
def NodupIds (g : Graph) : Prop := (g.nodes.map Prod.fst).Nodup

/-- The stored counter of a community selected by label. -/
def Community.countOf (c : Community) (l : Label) : Int :=
  match l with
  | Label.susceptible => c.susceptible
  | Label.infected => c.infected
  | Label.recovered => c.recovered

/-- The local counter of a scan selected by label. -/
def localOf (st : ScanState) (l : Label) : Int :=
  match l with
  | Label.susceptible => st.local_susceptible
  | Label.infected => st.local_infected
  | Label.recovered => st.local_recovered

lemma label_find? (g : Graph) (v : Nat) (L : Label) (h : g.label v = some L) :
    g.nodes.find? (fun nd => nd.1 == v) = some (v, L) := by
  unfold Graph.label at h
  rcases Option.map_eq_some'.mp h with ⟨nd, hf, hsnd⟩
  have hp := List.find?_some hf
  have h1 : nd.1 = v := by simpa using hp
  rw [hf]
  have : nd = (v, L) := by
    cases nd
    simp only [Prod.mk.injEq]
    exact ⟨h1, hsnd⟩
  rw [this]

lemma label_none_not_mem (g : Graph) (v : Nat) (h : g.label v = none) :
    ∀ nd ∈ g.nodes, nd.1 ≠ v := by
  unfold Graph.label at h
  rw [Option.map_eq_none'] at h
  rw [List.find?_eq_none] at h
  intro nd hm
  simpa using h nd hm

lemma hasNode_false_of_label_none (g : Graph) (v : Nat) (h : g.label v = none) :
    g.hasNode v = false := by
  unfold Graph.hasNode
  rw [List.any_eq_false]
  intro nd hm
  simpa using label_none_not_mem g v h nd hm

lemma hasNode_true_of_label_some (g : Graph) (v : Nat) (L : Label)
    (h : g.label v = some L) : g.hasNode v = true := by
  unfold Graph.hasNode
  rw [List.any_eq_true]
  refine ⟨(v, L), List.mem_of_find?_eq_some (label_find? g v L h), by simp⟩

lemma label_none_or_some (g : Graph) (v : Nat) :
    g.label v = none ∨ ∃ L, g.label v = some L := by
  cases h : g.label v with
  | none => exact Or.inl rfl
  | some L => exact Or.inr ⟨L, rfl⟩

lemma relabel_map_id (tl : List (Nat × Label)) (v : Nat) (L2 : Label)
    (h : ∀ nd ∈ tl, nd.1 ≠ v) :
    tl.map (fun nd => if nd.1 == v then (v, L2) else nd) = tl := by
  induction tl with
  | nil => rfl
  | cons a tlr ih =>
    simp only [List.map]
    rw [if_neg (by simpa using h a (List.mem_cons_self a tlr))]
    rw [ih (fun nd hm => h nd (List.mem_cons_of_mem a hm))]

lemma labelCount_overwrite_aux (nodes : List (Nat × Label)) (v : Nat)
    (L L2 M : Label) (hnd : (nodes.map Prod.fst).Nodup)
    (hfind : nodes.find? (fun nd => nd.1 == v) = some (v, L)) :
    (((nodes.map (fun nd => if nd.1 == v then (v, L2) else nd)).filter
        (fun nd => nd.2 == M)).length : Int)
      = ((nodes.filter (fun nd => nd.2 == M)).length : Int)
        - (if L = M then 1 else 0) + (if L2 = M then 1 else 0) := by
  induction nodes with
  | nil => exact absurd hfind (by simp)
  | cons a tl ih =>
    by_cases ha : a.1 = v
    · have hfa : a = (v, L) := by
        rw [List.find?_cons_of_pos _ (by simpa using ha)] at hfind
        exact Option.some.inj hfind
      have hvtl : ∀ nd ∈ tl, nd.1 ≠ v := by
        intro nd hm hc
        have hnotm : a.1 ∉ tl.map Prod.fst := by
          simp only [List.map_cons, List.nodup_cons] at hnd
          exact hnd.1
        have hmem : nd.1 ∈ tl.map Prod.fst := List.mem_map_of_mem Prod.fst hm
        rw [hc, ← ha] at hmem
        exact hnotm hmem
      simp only [List.map]
      rw [if_pos (by simpa using ha), relabel_map_id tl v L2 hvtl]
      rw [hfa]
      by_cases hLM : L = M <;> by_cases hL2M : L2 = M <;>
        simp [List.filter_cons, hLM, hL2M] <;> omega
    · rw [List.find?_cons_of_neg _ (by simpa using ha)] at hfind
      have hnd2 : (tl.map Prod.fst).Nodup := by
        simp only [List.map_cons, List.nodup_cons] at hnd
        exact hnd.2
      have hrec := ih hnd2 hfind
      simp only [List.map]
      rw [if_neg (by simpa using ha)]
      by_cases haM : a.2 = M <;> simp [List.filter_cons, haM] at hrec ⊢ <;> omega

lemma labelCount_setLabel (g : Graph) (v : Nat) (L L2 M : Label)
    (hnd : NodupIds g) (hl : g.label v = some L) :
    (labelCount (g.setLabel v L2) M : Int)
      = (labelCount g M : Int) - (if L = M then 1 else 0)
        + (if L2 = M then 1 else 0) := by
  unfold labelCount Graph.setLabel
  exact labelCount_overwrite_aux g.nodes v L L2 M hnd (label_find? g v L hl)

lemma labelCount_addNode_existing (g : Graph) (v : Nat) (l L M : Label)
    (hnd : NodupIds g) (hl : g.label v = some L) :
    (labelCount (g.addNode v l) M : Int)
      = (labelCount g M : Int) - (if L = M then 1 else 0)
        + (if l = M then 1 else 0) := by
  unfold labelCount Graph.addNode
  rw [if_pos (hasNode_true_of_label_some g v L hl)]
  exact labelCount_overwrite_aux g.nodes v L l M hnd (label_find? g v L hl)

lemma labelCount_addNode_fresh (g : Graph) (v : Nat) (l M : Label)
    (hl : g.label v = none) :
    labelCount (g.addNode v l) M
      = labelCount g M + (if l = M then 1 else 0) := by
  have hf := hasNode_false_of_label_none g v hl
  unfold Graph.addNode labelCount
  rw [hf]
  by_cases hlM : l = M <;> simp [List.filter_append, List.filter_cons, hlM]

lemma labelCount_removeNode_some_aux (nodes : List (Nat × Label)) (v : Nat)
    (L M : Label) (hnd : (nodes.map Prod.fst).Nodup)
    (hfind : nodes.find? (fun nd => nd.1 == v) = some (v, L)) :
    (((nodes.filter (fun nd => !(nd.1 == v))).filter
        (fun nd => nd.2 == M)).length : Int)
      = ((nodes.filter (fun nd => nd.2 == M)).length : Int)
        - (if L = M then 1 else 0) := by
  induction nodes with
  | nil => exact absurd hfind (by simp)
  | cons a tl ih =>
    by_cases ha : a.1 = v
    · have hfa : a = (v, L) := by
        rw [List.find?_cons_of_pos _ (by simpa using ha)] at hfind
        exact Option.some.inj hfind
      have hvtl : ∀ nd ∈ tl, nd.1 ≠ v := by
        intro nd hm hc
        have hnotm : a.1 ∉ tl.map Prod.fst := by
          simp only [List.map_cons, List.nodup_cons] at hnd
          exact hnd.1
        have hmem : nd.1 ∈ tl.map Prod.fst := List.mem_map_of_mem Prod.fst hm
        rw [hc, ← ha] at hmem
        exact hnotm hmem
      have hid : tl.filter (fun nd => !(nd.1 == v)) = tl := by
        apply List.filter_eq_self.mpr
        intro nd hm
        simpa using hvtl nd hm
      rw [hfa]
      by_cases hLM : L = M <;>
        simp [List.filter_cons, hid, hLM] <;> omega
    · rw [List.find?_cons_of_neg _ (by simpa using ha)] at hfind
      have hnd2 : (tl.map Prod.fst).Nodup := by
        simp only [List.map_cons, List.nodup_cons] at hnd
        exact hnd.2
      have hrec := ih hnd2 hfind
      by_cases haM : a.2 = M <;>
        simp [List.filter_cons, ha, haM] at hrec ⊢ <;> omega

lemma labelCount_removeNode_some (g : Graph) (v : Nat) (L M : Label)
    (hnd : NodupIds g) (hl : g.label v = some L) :
    (labelCount (g.removeNode v) M : Int)
      = (labelCount g M : Int) - (if L = M then 1 else 0) := by
  unfold labelCount Graph.removeNode
  exact labelCount_removeNode_some_aux g.nodes v L M hnd (label_find? g v L hl)

lemma labelCount_removeNode_none (g : Graph) (v : Nat) (hl : g.label v = none) :
    labelCount (g.removeNode v) M = labelCount g M := by
  unfold labelCount
  rw [removeNode_none g v hl]

lemma ids_relabel (nodes : List (Nat × Label)) (v : Nat) (l : Label) :
    (nodes.map (fun nd => if nd.1 == v then (v, l) else nd)).map Prod.fst
      = nodes.map Prod.fst := by
  induction nodes with
  | nil => rfl
  | cons a tl ih =>
    simp only [List.map_cons]
    rw [ih]
    by_cases ha : a.1 = v
    · simp [ha]
    · simp [ha]

lemma nodupIds_setLabel (g : Graph) (v : Nat) (l : Label) (h : NodupIds g) :
    NodupIds (g.setLabel v l) := by
  unfold NodupIds Graph.setLabel at *
  dsimp only
  rw [ids_relabel]
  exact h

lemma nodupIds_addNode (g : Graph) (v : Nat) (l : Label) (h : NodupIds g) :
    NodupIds (g.addNode v l) := by
  unfold Graph.addNode
  by_cases hv : g.hasNode v = true
  · rw [if_pos hv]
    unfold NodupIds at *
    dsimp only
    rw [ids_relabel]
    exact h
  · rw [if_neg hv]
    unfold NodupIds at *
    dsimp only
    have hnot : v ∉ g.nodes.map Prod.fst := by
      intro hmem
      apply hv
      unfold Graph.hasNode
      rw [List.any_eq_true]
      rcases List.mem_map.mp hmem with ⟨nd, hnd, hfst⟩
      exact ⟨nd, hnd, by simp [hfst]⟩
    simp only [List.map_append, List.map_cons, List.map_nil]
    rw [List.nodup_append]
    refine ⟨h, List.nodup_singleton v, ?_⟩
    intro x hx hx2
    rw [List.mem_singleton] at hx2
    exact hnot (hx2 ▸ hx)

lemma nodupIds_removeNode (g : Graph) (v : Nat) (h : NodupIds g) :
    NodupIds (g.removeNode v) := by
  unfold NodupIds Graph.removeNode at *
  dsimp only
  exact List.Nodup.sublist
    (List.Sublist.map Prod.fst (List.filter_sublist g.nodes)) h

lemma nodupIds_erNodes (s i r : Int) (es : List (Nat × Nat)) :
    NodupIds { nodes := erNodes s i r, edges := es } := by
  unfold NodupIds erNodes
  dsimp only
  have hmap : ((List.range (s + i + r).toNat).map (fun (j : Nat) =>
      if (j : Int) < s then (j, Label.susceptible)
      else if (j : Int) < s + i then (j, Label.infected)
      else (j, Label.recovered))).map Prod.fst
      = List.range (s + i + r).toNat := by
    rw [List.map_map]
    have : ∀ x ∈ List.range (s + i + r).toNat,
        (Prod.fst ∘ (fun (j : Nat) =>
          if (j : Int) < s then (j, Label.susceptible)
          else if (j : Int) < s + i then (j, Label.infected)
          else (j, Label.recovered))) x = id x := by
      intro x _
      simp only [Function.comp, id]
      by_cases h1 : (x : Int) < s
      · rw [if_pos h1]
      · rw [if_neg h1]
        by_cases h2 : (x : Int) < s + i
        · rw [if_pos h2]
        · rw [if_neg h2]
    rw [List.map_congr_left this, List.map_id]
  rw [hmap]
  exact List.nodup_range _

lemma find?_append_none (l1 l2 : List (Nat × Label)) (p : (Nat × Label) → Bool)
    (h : l1.find? p = none) : (l1 ++ l2).find? p = l2.find? p := by
  induction l1 with
  | nil => rfl
  | cons a tl ih =>
    by_cases hpa : p a = true
    · rw [List.find?_cons_of_pos _ hpa] at h
      exact absurd h (by simp)
    · rw [List.find?_cons_of_neg _ hpa] at h
      simp only [List.cons_append]
      rw [List.find?_cons_of_neg _ hpa]
      exact ih h

lemma find?_append_some (l1 l2 : List (Nat × Label)) (p : (Nat × Label) → Bool)
    (nd : Nat × Label) (h : l1.find? p = some nd) :
    (l1 ++ l2).find? p = some nd := by
  induction l1 with
  | nil => simp at h
  | cons a tl ih =>
    by_cases hpa : p a = true
    · rw [List.find?_cons_of_pos _ hpa] at h
      simp only [List.cons_append]
      rw [List.find?_cons_of_pos _ hpa]
      exact h
    · rw [List.find?_cons_of_neg _ hpa] at h
      simp only [List.cons_append]
      rw [List.find?_cons_of_neg _ hpa]
      exact ih h

lemma label_none_of_hasNode_false (g : Graph) (v : Nat)
    (h : ¬ g.hasNode v = true) : g.label v = none := by
  unfold Graph.hasNode at h
  rw [Bool.not_eq_true, List.any_eq_false] at h
  unfold Graph.label
  rw [Option.map_eq_none', List.find?_eq_none]
  intro nd hm
  exact h nd hm

lemma find?_relabel_self (nodes : List (Nat × Label)) (v : Nat) (l : Label)
    (h : nodes.any (fun nd => nd.1 == v) = true) :
    (nodes.map (fun nd => if nd.1 == v then (v, l) else nd)).find?
      (fun nd => nd.1 == v) = some (v, l) := by
  induction nodes with
  | nil => simp at h
  | cons a tl ih =>
    simp only [List.map_cons]
    by_cases ha : a.1 = v
    · rw [if_pos (by simpa using ha)]
      rw [List.find?_cons_of_pos _ (by simp)]
    · rw [if_neg (by simpa using ha)]
      rw [List.find?_cons_of_neg _ (by simpa using ha)]
      apply ih
      simpa [ha] using h

lemma find?_relabel_ne (nodes : List (Nat × Label)) (v w : Nat) (l : Label)
    (hw : w ≠ v) :
    (nodes.map (fun nd => if nd.1 == v then (v, l) else nd)).find?
      (fun nd => nd.1 == w) = nodes.find? (fun nd => nd.1 == w) := by
  induction nodes with
  | nil => rfl
  | cons a tl ih =>
    simp only [List.map_cons]
    by_cases ha : a.1 = v
    · have hb1 : ((v : Nat) == w) = false := by
        simpa using fun h => hw h.symm
      have hb2 : (a.1 == w) = false := by rw [ha]; exact hb1
      rw [if_pos (by simpa using ha)]
      simp only [List.find?_cons, hb1, hb2]
      exact ih
    · rw [if_neg (by simpa using ha)]
      by_cases haw : a.1 = w
      · have hb : (a.1 == w) = true := by simpa using haw
        simp only [List.find?_cons, hb]
      · have hb : (a.1 == w) = false := by simpa using haw
        simp only [List.find?_cons, hb]
        exact ih

lemma addNode_label_self (g : Graph) (v : Nat) (l : Label) :
    (g.addNode v l).label v = some l := by
  unfold Graph.addNode Graph.label
  by_cases hv : g.hasNode v = true
  · rw [if_pos hv]
    dsimp only
    rw [find?_relabel_self g.nodes v l hv]
    rfl
  · rw [if_neg hv]
    dsimp only
    have hnone : g.nodes.find? (fun nd => nd.1 == v) = none := by
      rw [List.find?_eq_none]
      intro nd hm
      simpa using label_none_not_mem g v
        (label_none_of_hasNode_false g v hv) nd hm
    rw [find?_append_none _ _ _ hnone]
    rw [List.find?_cons_of_pos _ (by simp)]
    rfl

lemma addNode_label_ne (g : Graph) (v w : Nat) (l : Label) (hw : w ≠ v) :
    (g.addNode v l).label w = g.label w := by
  unfold Graph.addNode Graph.label
  by_cases hv : g.hasNode v = true
  · rw [if_pos hv]
    dsimp only
    rw [find?_relabel_ne g.nodes v w l hw]
  · rw [if_neg hv]
    dsimp only
    cases hfw : g.nodes.find? (fun nd => nd.1 == w) with
    | none =>
      rw [find?_append_none _ _ _ hfw]
      have hb : ((v : Nat) == w) = false := by
        simpa using fun h => hw h.symm
      simp [List.find?_cons, hb]
    | some nd =>
      rw [find?_append_some _ _ _ _ hfw]

/-- C4: contrary to the claim that a migrating individual is re-inserted into the
destination graph under a freshly assigned node id, the migration branch re-inserts
it under its unchanged source node id. The destination graph becomes `addNode` of
that same id; under it the id carries the migrant's label, every other id keeps its
label, and a node is added exactly when the id was not already present in the
destination - an already-present id gets its compartment label overwritten and no
node is added. -/
theorem migration_reuses_source_id (p : Params) (k v c : Nat) (st : ScanState)
    (lbl : Label)
    (hmove : st.rng.seq st.rng.idx < p.move_probability)
    (hfc : (findContextToMoveTo (k + 1) ⟨st.rng.seq, st.rng.idx + 1⟩).1 = some c)
    (hl : (getCommunity st.graphs k).graph.label v = some lbl)
    (hcl : c - 1 < st.graphs.length) :
    (processNode p k v st).nodes_to_remove = st.nodes_to_remove ++ [v] ∧
    (getCommunity (processNode p k v st).graphs (c - 1)).graph
      = ((getCommunity st.graphs (c - 1)).graph).addNode v lbl ∧
    (((getCommunity st.graphs (c - 1)).graph).addNode v lbl).label v = some lbl ∧
    (∀ w, w ≠ v →
      (((getCommunity st.graphs (c - 1)).graph).addNode v lbl).label w
        = (getCommunity st.graphs (c - 1)).graph.label w) ∧
    (((getCommunity st.graphs (c - 1)).graph).addNode v lbl).nodes.length
      = (if (getCommunity st.graphs (c - 1)).graph.hasNode v
         then (getCommunity st.graphs (c - 1)).graph.nodes.length
         else (getCommunity st.graphs (c - 1)).graph.nodes.length + 1) := by
  unfold processNode
  dsimp only [RState.draw]
  rw [if_pos hmove]
  rcases hp : findContextToMoveTo (k + 1) ⟨st.rng.seq, st.rng.idx + 1⟩
    with ⟨o, r2⟩
  rw [hp] at hfc
  dsimp only at hfc
  subst hfc
  rw [hl]
  dsimp only
  refine ⟨rfl, ?_, addNode_label_self _ v lbl,
    fun w hw => addNode_label_ne _ v w lbl hw, addNode_length _ v lbl⟩
  rw [getCommunity_set_self _ _ _ hcl, addCount_graph]

/-- Concrete scan state (population two per community) whose next draw sends
community 0's node 0 into the migration branch toward community 2. -/
def migScanState : ScanState :=
  { graphs := (initState 2 (mkRat 1 2) tapeHalf).graphs,
    local_susceptible := 1, local_infected := 1, local_recovered := 0,
    nodes_to_remove := [], rng := ⟨fun _ => mkRat 1 10, 0⟩ }

/-- The migration branch exercised concretely: community 0's node 0 is scheduled
for removal and re-inserted into community 2 under the same id 0. -/
theorem migration_reuses_source_id_witness :
    migScanState.rng.seq migScanState.rng.idx < pHalf.move_probability ∧
    (processNode pHalf 0 0 migScanState).nodes_to_remove = [0] ∧
    (getCommunity (processNode pHalf 0 0 migScanState).graphs 1).graph
      = ((getCommunity migScanState.graphs 1).graph).addNode 0
          Label.susceptible := by
  refine ⟨by decide, ?_⟩
  have h := migration_reuses_source_id pHalf 0 0 2 migScanState Label.susceptible
    (by decide) (by decide) (by decide) (by decide)
  exact ⟨h.1, h.2.1⟩

/-- Every community graph of the list has duplicate-free node ids. -/
def IdsOK (gs : List Community) : Prop :=
  ∀ j, NodupIds (getCommunity gs j).graph

/-- Per-label bookkeeping slack of community `j` during the scan of community `k`:
effective counter (local for `k`, stored otherwise) minus the number of graph nodes
carrying that label. -/
def labSlack (k : Nat) (st : ScanState) (j : Nat) (l : Label) : Int :=
  (if j = k then localOf st l else (getCommunity st.graphs j).countOf l)
    - (labelCount (getCommunity st.graphs j).graph l : Int)

/-- Per-label slack of community `j` between updates. -/
def cldiff (gs : List Community) (j : Nat) (l : Label) : Int :=
  (getCommunity gs j).countOf l
    - (labelCount (getCommunity gs j).graph l : Int)

lemma addCount_countOf (c : Community) (l m : Label) :
    (c.addCount l).countOf m = c.countOf m + (if l = m then 1 else 0) := by
  cases l <;> cases m <;> simp [Community.addCount, Community.countOf]

lemma neighborLoop_locals (p : Params) (k v : Nat) (nbrs : List Nat)
    (st : ScanState) :
    ((neighborLoop p k v nbrs st).2 = [] ∧
     (neighborLoop p k v nbrs st).1.local_susceptible = st.local_susceptible ∧
     (neighborLoop p k v nbrs st).1.local_infected = st.local_infected) ∨
    ((neighborLoop p k v nbrs st).2 = [v] ∧
     (neighborLoop p k v nbrs st).1.local_susceptible
       = st.local_susceptible - 1 ∧
     (neighborLoop p k v nbrs st).1.local_infected = st.local_infected + 1) := by
  induction nbrs generalizing st with
  | nil => left; exact ⟨rfl, rfl, rfl⟩
  | cons nb rest ih =>
    unfold neighborLoop
    dsimp only [RState.draw]
    by_cases h1 : (getCommunity st.graphs k).graph.label nb = some Label.infected
    · rw [if_pos h1]
      by_cases h2 : st.rng.seq st.rng.idx < p.beta
      · rw [if_pos h2]
        right
        exact ⟨rfl, rfl, rfl⟩
      · rw [if_neg h2]
        exact ih _
    · rw [if_neg h1]
      exact ih _

lemma countOf_graphUpdate (c : Community) (g : Graph) (l : Label) :
    (Community.countOf { c with graph := g } l) = c.countOf l := by
  cases l <;> rfl

lemma processNode_labOK (p : Params) (k v : Nat) (st : ScanState)
    (hok : IdsOK st.graphs) :
    (∀ j l, labSlack k st j l ≤ labSlack k (processNode p k v st) j l) ∧
    IdsOK (processNode p k v st).graphs := by
  unfold processNode
  dsimp only [RState.draw]
  by_cases hmv : st.rng.seq st.rng.idx < p.move_probability
  · rw [if_pos hmv]
    rcases hfc : findContextToMoveTo (k + 1) ⟨st.rng.seq, st.rng.idx + 1⟩
      with ⟨o, r2⟩
    cases o with
    | none => exact ⟨fun j l => le_of_eq rfl, hok⟩
    | some c =>
      cases hlb : (getCommunity st.graphs k).graph.label v with
      | none => exact ⟨fun j l => le_of_eq rfl, hok⟩
      | some lbl =>
        dsimp only
        have hmem := findContextToMoveTo_mem (k + 1)
          ⟨st.rng.seq, st.rng.idx + 1⟩ c (by rw [hfc])
        have hc1 : 1 ≤ c := by rcases hmem.1 with h | h | h | h <;> omega
        have hdk : c - 1 ≠ k := by
          intro h
          exact hmem.2 (by omega)
        constructor
        · intro j l
          unfold labSlack
          dsimp only
          by_cases hj : j = c - 1
          · subst hj
            rw [if_neg hdk, if_neg hdk]
            rw [getCommunity_set]
            by_cases hcl : c - 1 = c - 1 ∧ c - 1 < st.graphs.length
            · rw [if_pos hcl]
              rcases label_none_or_some
                  ((getCommunity st.graphs (c - 1)).graph) v with hn0 | ⟨L0, hs0⟩
              · have hlc := labelCount_addNode_fresh
                  ((getCommunity st.graphs (c - 1)).graph) v lbl l hn0
                cases lbl <;> cases l <;>
                  dsimp only [Community.addCount, Community.countOf] <;>
                  simp at hlc <;> omega
              · have hlc := labelCount_addNode_existing
                  ((getCommunity st.graphs (c - 1)).graph) v lbl L0 l
                  (hok (c - 1)) hs0
                cases lbl <;> cases L0 <;> cases l <;>
                  dsimp only [Community.addCount, Community.countOf] <;>
                  simp at hlc <;> omega
            · rw [if_neg hcl]
          · rw [getCommunity_set_ne _ _ _ _ (fun h => hj h.symm)]
            cases l <;> simp only [localOf] <;> rfl
        · intro i
          rw [getCommunity_set]
          by_cases hci : c - 1 = i ∧ c - 1 < st.graphs.length
          · rw [if_pos hci]
            rw [show (Community.addCount { getCommunity st.graphs (c - 1) with
                graph := (getCommunity st.graphs (c - 1)).graph.addNode v lbl }
                lbl).graph
              = (getCommunity st.graphs (c - 1)).graph.addNode v lbl
              from addCount_graph _ _]
            exact nodupIds_addNode _ v lbl (hok (c - 1))
          · rw [if_neg hci]
            exact hok i
  · rw [if_neg hmv]
    cases hlb : (getCommunity st.graphs k).graph.label v with
    | none => exact ⟨fun j l => le_of_eq rfl, hok⟩
    | some lbl =>
      have hk : k < st.graphs.length := by
        by_contra hcon
        rw [getCommunity_out_of_range st.graphs k hcon] at hlb
        have hde : (default : Community).graph.label v = none := rfl
        rw [hde] at hlb
        exact Option.noConfusion hlb
      cases lbl with
      | infected =>
        dsimp only
        by_cases h2 : st.rng.seq (st.rng.idx + 1) < p.recovery
        · rw [if_pos h2]
          constructor
          · intro j l
            apply le_of_eq
            unfold labSlack
            dsimp only
            by_cases hj : j = k
            · rw [hj, if_pos rfl, if_pos rfl]
              rw [getCommunity_setGraphOf_self _ _ _ hk]
              dsimp only
              have hlc := labelCount_setLabel (getCommunity st.graphs k).graph v
                Label.infected Label.recovered l (hok k) hlb
              rw [hlc]
              cases l <;> simp [localOf] <;> omega
            · rw [if_neg hj, if_neg hj,
                getCommunity_setGraphOf_ne _ _ _ _ (fun h => hj h.symm)]
          · intro i
            by_cases hi2 : k = i
            · subst hi2
              rw [getCommunity_setGraphOf_self _ _ _ hk]
              exact nodupIds_setLabel _ v Label.recovered (hok k)
            · rw [getCommunity_setGraphOf_ne _ _ _ _ hi2]
              exact hok i
        · rw [if_neg h2]
          exact ⟨fun j l => le_of_eq rfl, hok⟩
      | recovered =>
        dsimp only
        by_cases h2 : st.rng.seq (st.rng.idx + 1) < p.r_to_s
        · rw [if_pos h2]
          constructor
          · intro j l
            apply le_of_eq
            unfold labSlack
            dsimp only
            by_cases hj : j = k
            · rw [hj, if_pos rfl, if_pos rfl]
              rw [getCommunity_setGraphOf_self _ _ _ hk]
              dsimp only
              have hlc := labelCount_setLabel (getCommunity st.graphs k).graph v
                Label.recovered Label.susceptible l (hok k) hlb
              rw [hlc]
              cases l <;> simp [localOf] <;> omega
            · rw [if_neg hj, if_neg hj,
                getCommunity_setGraphOf_ne _ _ _ _ (fun h => hj h.symm)]
          · intro i
            by_cases hi2 : k = i
            · subst hi2
              rw [getCommunity_setGraphOf_self _ _ _ hk]
              exact nodupIds_setLabel _ v Label.susceptible (hok k)
            · rw [getCommunity_setGraphOf_ne _ _ _ _ hi2]
              exact hok i
        · rw [if_neg h2]
          exact ⟨fun j l => le_of_eq rfl, hok⟩
      | susceptible =>
        dsimp only
        have hg := neighborLoop_graphs p k v
          ((getCommunity st.graphs k).graph.neighbors v)
          { st with rng := ⟨st.rng.seq, st.rng.idx + 1⟩ }
        rcases neighborLoop_locals p k v
            ((getCommunity st.graphs k).graph.neighbors v)
            { st with rng := ⟨st.rng.seq, st.rng.idx + 1⟩ } with
          ⟨hn, hs, hi⟩ | ⟨hn, hs, hi⟩ <;> rw [hn] <;> simp only [List.foldl] <;>
          dsimp only at hs hi
        · constructor
          · intro j l
            apply le_of_eq
            unfold labSlack
            rw [hg.1]
            cases l
            · simp only [localOf]
              rw [hs]
            · simp only [localOf]
              rw [hi]
            · simp only [localOf]
              rw [hg.2.2.1]
          · intro i
            rw [hg.1]
            exact hok i
        · constructor
          · intro j l
            unfold labSlack
            dsimp only
            rw [hg.1]
            by_cases hj : j = k
            · rw [hj, if_pos rfl, if_pos rfl]
              rw [getCommunity_setGraphOf_self _ _ _ hk]
              dsimp only
              have hlc := labelCount_setLabel (getCommunity st.graphs k).graph v
                Label.susceptible Label.infected l (hok k) hlb
              rw [hlc]
              cases l
              · simp only [localOf]
                rw [hs]
                simp
              · simp only [localOf]
                rw [hi]
                simp
              · simp only [localOf]
                rw [hg.2.2.1]
                simp
            · rw [if_neg hj, if_neg hj,
                getCommunity_setGraphOf_ne _ _ _ _ (fun h => hj h.symm)]
          · intro i
            rw [hg.1]
            by_cases hi2 : k = i
            · subst hi2
              rw [getCommunity_setGraphOf_self _ _ _ hk]
              exact nodupIds_setLabel _ v Label.infected (hok k)
            · rw [getCommunity_setGraphOf_ne _ _ _ _ hi2]
              exact hok i

lemma idsOK_setGraphOf (gs : List Community) (k : Nat) (g : Graph)
    (hok : IdsOK gs) (hg : NodupIds g) : IdsOK (setGraphOf gs k g) := by
  intro i
  unfold setGraphOf
  rw [getCommunity_set]
  by_cases hc : k = i ∧ k < gs.length
  · rw [if_pos hc]
    exact hg
  · rw [if_neg hc]
    exact hok i

lemma removeLoop_labOK (k : Nat) (vs : List Nat) (st : ScanState)
    (hok : IdsOK st.graphs) :
    (∀ j l, labSlack k st j l ≤ labSlack k (removeLoop k vs st) j l) ∧
    IdsOK (removeLoop k vs st).graphs := by
  induction vs generalizing st with
  | nil => exact ⟨fun j l => le_rfl, hok⟩
  | cons v rest ih =>
    unfold removeLoop
    dsimp only
    rcases hl : (getCommunity st.graphs k).graph.label v with _ | L
    · have hok1 : IdsOK (setGraphOf st.graphs k
          ((getCommunity st.graphs k).graph.removeNode v)) :=
        idsOK_setGraphOf _ _ _ hok (nodupIds_removeNode _ v (hok k))
      refine ⟨fun j l => le_trans (le_of_eq ?_) ((ih _ hok1).1 j l),
        (ih _ hok1).2⟩
      unfold labSlack setGraphOf
      dsimp only
      rw [getCommunity_set]
      have hlc := @labelCount_removeNode_none l
        (getCommunity st.graphs k).graph v hl
      by_cases hc : k = j ∧ k < st.graphs.length
      · rw [if_pos hc]
        have hkj := hc.1
        subst hkj
        rw [if_pos rfl, if_pos rfl]
        dsimp only
        rw [hlc]
        cases l <;> simp only [localOf]
      · rw [if_neg hc]
        by_cases hj : j = k
        · rw [if_pos hj, if_pos hj]
          cases l <;> simp only [localOf]
        · rw [if_neg hj, if_neg hj]
    · have hk : k < st.graphs.length := by
        by_contra hcon
        rw [getCommunity_out_of_range st.graphs k hcon] at hl
        have hde : (default : Community).graph.label v = none := rfl
        rw [hde] at hl
        exact Option.noConfusion hl
      have hok1 : IdsOK (setGraphOf st.graphs k
          ((getCommunity st.graphs k).graph.removeNode v)) :=
        idsOK_setGraphOf _ _ _ hok (nodupIds_removeNode _ v (hok k))
      cases L <;>
        · dsimp only
          refine ⟨fun j l => le_trans (le_of_eq ?_) ((ih _ hok1).1 j l),
            (ih _ hok1).2⟩
          unfold labSlack setGraphOf
          dsimp only
          rw [getCommunity_set]
          have hlc := labelCount_removeNode_some
            (getCommunity st.graphs k).graph v _ l (hok k) hl
          by_cases hj : j = k
          · rw [hj, if_pos rfl, if_pos rfl, if_pos (And.intro rfl hk)]
            dsimp only
            rw [hlc]
            cases l <;> simp [localOf] <;> omega
          · rw [if_neg hj, if_neg hj, if_neg (fun h => hj h.1.symm)]

lemma foldl_processNode_labOK (p : Params) (k : Nat) (ids : List Nat)
    (st : ScanState) (hok : IdsOK st.graphs) :
    (∀ j l, labSlack k st j l ≤ labSlack k
      (ids.foldl (fun acc v => processNode p k v acc) st) j l) ∧
    IdsOK (ids.foldl (fun acc v => processNode p k v acc) st).graphs := by
  induction ids generalizing st with
  | nil => exact ⟨fun j l => le_rfl, hok⟩
  | cons v rest ih =>
    simp only [List.foldl]
    obtain ⟨h1, h2⟩ := processNode_labOK p k v st hok
    obtain ⟨h3, h4⟩ := ih (processNode p k v st) h2
    exact ⟨fun j l => le_trans (h1 j l) (h3 j l), h4⟩

lemma writeBack_cldiff (k : Nat) (st : ScanState) (j : Nat) (l : Label)
    (hk : k < st.graphs.length) :
    labSlack k st j l = cldiff (st.graphs.set k
      { getCommunity st.graphs k with
        susceptible := st.local_susceptible,
        infected := st.local_infected,
        recovered := st.local_recovered }) j l := by
  unfold cldiff labSlack
  by_cases hj : j = k
  · rw [hj, if_pos rfl, getCommunity_set_self _ _ _ hk]
    cases l <;> simp only [localOf, Community.countOf]
  · rw [if_neg hj, getCommunity_set_ne _ _ _ _ (fun h => hj h.symm)]

lemma idsOK_writeBack (k : Nat) (st : ScanState) (hok : IdsOK st.graphs) :
    IdsOK (st.graphs.set k
      { getCommunity st.graphs k with
        susceptible := st.local_susceptible,
        infected := st.local_infected,
        recovered := st.local_recovered }) := by
  intro i
  rw [getCommunity_set]
  by_cases hc : k = i ∧ k < st.graphs.length
  · rw [if_pos hc]
    exact hok k
  · rw [if_neg hc]
    exact hok i

lemma performGraphIteration_labOK (p : Params) (k : Nat) (gs : List Community)
    (r : RState) (hk : k < gs.length) (hok : IdsOK gs) :
    (∀ j l, cldiff gs j l ≤ cldiff (performGraphIteration p k gs r).1 j l) ∧
    IdsOK (performGraphIteration p k gs r).1 := by
  unfold performGraphIteration
  dsimp only
  obtain ⟨hf1, hf2⟩ := foldl_processNode_labOK p k
    ((getCommunity gs k).graph.ids)
    { graphs := gs, local_susceptible := (getCommunity gs k).susceptible,
      local_infected := (getCommunity gs k).infected,
      local_recovered := (getCommunity gs k).recovered,
      nodes_to_remove := [], rng := r } hok
  obtain ⟨hr1, hr2⟩ := removeLoop_labOK k
    (List.foldl (fun acc v => processNode p k v acc)
      { graphs := gs, local_susceptible := (getCommunity gs k).susceptible,
        local_infected := (getCommunity gs k).infected,
        local_recovered := (getCommunity gs k).recovered,
        nodes_to_remove := [], rng := r }
      ((getCommunity gs k).graph.ids)).nodes_to_remove
    (List.foldl (fun acc v => processNode p k v acc)
      { graphs := gs, local_susceptible := (getCommunity gs k).susceptible,
        local_infected := (getCommunity gs k).infected,
        local_recovered := (getCommunity gs k).recovered,
        nodes_to_remove := [], rng := r }
      ((getCommunity gs k).graph.ids)) hf2
  constructor
  · intro j l
    have hbase : cldiff gs j l = labSlack k
        { graphs := gs, local_susceptible := (getCommunity gs k).susceptible,
          local_infected := (getCommunity gs k).infected,
          local_recovered := (getCommunity gs k).recovered,
          nodes_to_remove := [], rng := r } j l := by
      unfold cldiff labSlack
      dsimp only
      by_cases hj : j = k
      · rw [hj, if_pos rfl]
        cases l <;> simp only [localOf, Community.countOf]
      · rw [if_neg hj]
    rw [hbase]
    refine le_trans (hf1 j l) ?_
    refine le_trans (hr1 j l) ?_
    apply le_of_eq
    apply writeBack_cldiff
    rw [(removeLoop_basic _ _ _).2.1, (foldl_processNode_basic ..).1]
    exact hk
  · exact idsOK_writeBack k _ hr2

lemma updatePass_labOK (p : Params) :
    ∀ (ks : List Nat) (gs : List Community) (r : RState) (cs ci cr : Int),
      (∀ k, k ∈ ks → k < gs.length) → IdsOK gs →
      (∀ j l, cldiff gs j l
        ≤ cldiff (updatePass p ks gs r cs ci cr).graphs j l) ∧
      IdsOK (updatePass p ks gs r cs ci cr).graphs := by
  intro ks
  induction ks with
  | nil =>
    intro gs r cs ci cr hks hok
    exact ⟨fun j l => le_rfl, hok⟩
  | cons k rest ih =>
    intro gs r cs ci cr hks hok
    unfold updatePass
    dsimp only
    obtain ⟨h1, h2⟩ := performGraphIteration_labOK p k gs r
      (hks k (by simp)) hok
    obtain ⟨h3, h4⟩ := ih (performGraphIteration p k gs r).1
      (performGraphIteration p k gs r).2
      (cs + (getCommunity (performGraphIteration p k gs r).1 k).susceptible)
      (ci + (getCommunity (performGraphIteration p k gs r).1 k).infected)
      (cr + (getCommunity (performGraphIteration p k gs r).1 k).recovered)
      (fun k2 hk2 => by
        rw [(performGraphIteration_basic p k gs r).1]
        exact hks k2 (by simp [hk2])) h2
    exact ⟨fun j l => le_trans (h1 j l) (h3 j l), h4⟩

lemma erNodes_eq_map (s i r : Int) :
    erNodes s i r = (List.range (s + i + r).toNat).map
      (fun (x : Nat) => (x,
        if (x : Int) < s then Label.susceptible
        else if (x : Int) < s + i then Label.infected
        else Label.recovered)) := by
  unfold erNodes
  apply List.map_congr_left
  intro x _
  by_cases h1 : (x : Int) < s
  · rw [if_pos h1, if_pos h1]
  · rw [if_neg h1, if_neg h1]
    by_cases h2 : (x : Int) < s + i
    · rw [if_pos h2, if_pos h2]
    · rw [if_neg h2, if_neg h2]

lemma length_filter_map_snd (f : Nat → Label) (M : Label) :
    ∀ xs : List Nat,
    ((xs.map (fun x => (x, f x))).filter (fun nd => nd.2 == M)).length
      = (xs.filter (fun x => f x == M)).length := by
  intro xs
  induction xs with
  | nil => rfl
  | cons a tl ih =>
    simp only [List.map_cons, List.filter_cons]
    by_cases hpa : (f a == M) = true
    · simp only [hpa, if_true, List.length_cons, ih]
    · simp [hpa, ih]

lemma range_count_S (s t2 : Int) (hs : 0 ≤ s) :
    ∀ N : Nat, ((List.range N).filter (fun (x : Nat) =>
        (if (x : Int) < s then Label.susceptible
         else if (x : Int) < t2 then Label.infected
         else Label.recovered) == Label.susceptible)).length
      = min N s.toNat := by
  intro N
  induction N with
  | zero => simp
  | succ N ih =>
    rw [List.range_succ, List.filter_append, List.length_append, ih]
    by_cases h1 : (N : Int) < s
    · simp [List.filter_cons, h1]
      omega
    · by_cases h2 : (N : Int) < t2
      · simp [List.filter_cons, h1, h2]
        omega
      · simp [List.filter_cons, h1, h2]
        omega

lemma range_count_I (s t2 : Int) (hs : 0 ≤ s) (hst : s ≤ t2) :
    ∀ N : Nat, ((List.range N).filter (fun (x : Nat) =>
        (if (x : Int) < s then Label.susceptible
         else if (x : Int) < t2 then Label.infected
         else Label.recovered) == Label.infected)).length
      = min N t2.toNat - min N s.toNat := by
  intro N
  induction N with
  | zero => simp
  | succ N ih =>
    rw [List.range_succ, List.filter_append, List.length_append, ih]
    by_cases h1 : (N : Int) < s
    · simp [List.filter_cons, h1]
      omega
    · by_cases h2 : (N : Int) < t2
      · simp [List.filter_cons, h1, h2]
        omega
      · simp [List.filter_cons, h1, h2]
        omega

lemma range_count_R (s t2 : Int) (hs : 0 ≤ s) (hst : s ≤ t2) :
    ∀ N : Nat, ((List.range N).filter (fun (x : Nat) =>
        (if (x : Int) < s then Label.susceptible
         else if (x : Int) < t2 then Label.infected
         else Label.recovered) == Label.recovered)).length
      = N - min N t2.toNat := by
  intro N
  induction N with
  | zero => simp
  | succ N ih =>
    rw [List.range_succ, List.filter_append, List.length_append, ih]
    by_cases h1 : (N : Int) < s
    · simp [List.filter_cons, h1]
      omega
    · by_cases h2 : (N : Int) < t2
      · simp [List.filter_cons, h1, h2]
        omega
      · simp [List.filter_cons, h1, h2]
        omega

lemma labelCount_generateErdosRenyi (s i r : Int) (q : ℚ) (rs : RState)
    (hs : 0 ≤ s) (hi : 0 ≤ i) (hr : 0 ≤ r) :
    ((labelCount (generateErdosRenyi s i r q rs).1 Label.susceptible : Int) = s) ∧
    ((labelCount (generateErdosRenyi s i r q rs).1 Label.infected : Int) = i) ∧
    ((labelCount (generateErdosRenyi s i r q rs).1 Label.recovered : Int) = r) := by
  unfold labelCount generateErdosRenyi
  dsimp only
  rw [erNodes_eq_map]
  refine ⟨?_, ?_, ?_⟩
  · rw [length_filter_map_snd (fun (x : Nat) =>
      if (x : Int) < s then Label.susceptible
      else if (x : Int) < s + i then Label.infected
      else Label.recovered) Label.susceptible]
    rw [range_count_S s (s + i) hs]
    omega
  · rw [length_filter_map_snd (fun (x : Nat) =>
      if (x : Int) < s then Label.susceptible
      else if (x : Int) < s + i then Label.infected
      else Label.recovered) Label.infected]
    rw [range_count_I s (s + i) hs (by omega)]
    omega
  · rw [length_filter_map_snd (fun (x : Nat) =>
      if (x : Int) < s then Label.susceptible
      else if (x : Int) < s + i then Label.infected
      else Label.recovered) Label.recovered]
    rw [range_count_R s (s + i) hs (by omega)]
    omega

lemma countOf_regenUpdate (c : Community) (g : Graph) (cm : List String)
    (l : Label) :
    Community.countOf { c with graph := g, cmap := cm } l = c.countOf l := by
  cases l <;> rfl

lemma regenPass_labfix (gamma : ℚ) :
    ∀ (ks : List Nat) (gs : List Community) (r : RState) (j : Nat),
      ks.Nodup → j ∈ ks → j < gs.length →
      0 ≤ (getCommunity gs j).susceptible →
      0 ≤ (getCommunity gs j).infected →
      0 ≤ (getCommunity gs j).recovered →
      (∀ l, (labelCount
          (getCommunity (regenPass gamma ks gs r).1 j).graph l : Int)
        = (getCommunity (regenPass gamma ks gs r).1 j).countOf l) ∧
      NodupIds (getCommunity (regenPass gamma ks gs r).1 j).graph := by
  intro ks
  induction ks with
  | nil => intro gs r j hnd hj; exact absurd hj (List.not_mem_nil j)
  | cons k rest ih =>
    intro gs r j hnd hj hlen hcs hci hcr
    unfold regenPass
    dsimp only
    by_cases hjr : j ∈ rest
    · have hjk : j ≠ k := fun h => (List.nodup_cons.mp hnd).1 (h ▸ hjr)
      refine ih _ _ j (List.nodup_cons.mp hnd).2 hjr ?_ ?_ ?_ ?_
      · rw [List.length_set]
        exact hlen
      · rw [getCommunity_set_ne _ _ _ _ (fun h => hjk h.symm)]
        exact hcs
      · rw [getCommunity_set_ne _ _ _ _ (fun h => hjk h.symm)]
        exact hci
      · rw [getCommunity_set_ne _ _ _ _ (fun h => hjk h.symm)]
        exact hcr
    · have hjk : j = k := by
        rcases List.mem_cons.mp hj with h | h
        · exact h
        · exact absurd h hjr
      subst hjk
      rw [regenPass_untouched gamma rest _ _ j hjr]
      rw [getCommunity_set_self _ _ _ hlen]
      constructor
      · intro l
        rw [countOf_regenUpdate]
        dsimp only
        obtain ⟨hS, hI, hR⟩ := labelCount_generateErdosRenyi
          (getCommunity gs j).susceptible (getCommunity gs j).infected
          (getCommunity gs j).recovered gamma r hcs hci hcr
        cases l
        · exact hS
        · exact hI
        · exact hR
      · dsimp only
        show NodupIds (generateErdosRenyi (getCommunity gs j).susceptible
          (getCommunity gs j).infected (getCommunity gs j).recovered gamma r).1
        exact nodupIds_erNodes _ _ _ _

/-- Between timesteps every stored compartment counter of every community equals
the number of graph nodes carrying that label. -/
def LabInv (gs : List Community) : Prop :=
  ∀ j l, (labelCount (getCommunity gs j).graph l : Int)
    = (getCommunity gs j).countOf l

lemma step_labinv (p : Params) (t : Nat) (s : SimState)
    (hlen : s.graphs.length = 4)
    (hinv : LabInv s.graphs) (hok : IdsOK s.graphs) :
    LabInv (step p t s).graphs ∧ IdsOK (step p t s).graphs := by
  unfold step
  dsimp only
  obtain ⟨hu1, hu2⟩ := updatePass_labOK p [0, 1, 2, 3] s.graphs s.rng 0 0 0
    (fun k hk => by
      rw [hlen]
      simp only [List.mem_cons, List.mem_singleton, List.not_mem_nil,
        or_false] at hk
      omega) hok
  have hulen := (updatePass_basic p [0, 1, 2, 3] s.graphs s.rng 0 0 0).1
  set u := updatePass p [0, 1, 2, 3] s.graphs s.rng 0 0 0 with hu
  have hpos : ∀ j l, 0 ≤ cldiff u.graphs j l := by
    intro j l
    refine le_trans (le_of_eq ?_) (hu1 j l)
    have h := hinv j l
    unfold cldiff
    omega
  have hInv2 : ∀ j, j < 4 →
      (∀ l, (labelCount (getCommunity
          (regenPass p.gamma [0, 1, 2, 3] u.graphs u.rng).1 j).graph l : Int)
        = (getCommunity
            (regenPass p.gamma [0, 1, 2, 3] u.graphs u.rng).1 j).countOf l) ∧
      NodupIds (getCommunity
        (regenPass p.gamma [0, 1, 2, 3] u.graphs u.rng).1 j).graph := by
    intro j hj
    refine regenPass_labfix p.gamma [0, 1, 2, 3] u.graphs u.rng j (by decide)
      (by interval_cases j <;> simp)
      (by rw [hulen, hlen]; exact hj) ?_ ?_ ?_
    · have h := hpos j Label.susceptible
      have h2 : (0 : Int) ≤ (labelCount
          (getCommunity u.graphs j).graph Label.susceptible : Int) :=
        Int.natCast_nonneg _
      have h3 : (getCommunity u.graphs j).countOf Label.susceptible
        = (getCommunity u.graphs j).susceptible := rfl
      unfold cldiff at h
      omega
    · have h := hpos j Label.infected
      have h2 : (0 : Int) ≤ (labelCount
          (getCommunity u.graphs j).graph Label.infected : Int) :=
        Int.natCast_nonneg _
      have h3 : (getCommunity u.graphs j).countOf Label.infected
        = (getCommunity u.graphs j).infected := rfl
      unfold cldiff at h
      omega
    · have h := hpos j Label.recovered
      have h2 : (0 : Int) ≤ (labelCount
          (getCommunity u.graphs j).graph Label.recovered : Int) :=
        Int.natCast_nonneg _
      have h3 : (getCommunity u.graphs j).countOf Label.recovered
        = (getCommunity u.graphs j).recovered := rfl
      unfold cldiff at h
      omega
  have hrlen : (regenPass p.gamma [0, 1, 2, 3] u.graphs u.rng).1.length = 4 := by
    rw [(regenPass_counts p.gamma [0, 1, 2, 3] u.graphs u.rng 0).2.1, hulen,
      hlen]
  constructor
  · intro j l
    by_cases hj : j < 4
    · exact (hInv2 j hj).1 l
    · have hout : getCommunity
          (regenPass p.gamma [0, 1, 2, 3] u.graphs u.rng).1 j = default := by
        apply getCommunity_out_of_range
        rw [hrlen]
        exact hj
      rw [hout]
      cases l <;> rfl
  · intro i
    by_cases hi : i < 4
    · exact (hInv2 i hi).2
    · have hout : getCommunity
          (regenPass p.gamma [0, 1, 2, 3] u.graphs u.rng).1 i = default := by
        apply getCommunity_out_of_range
        rw [hrlen]
        exact hi
      rw [hout]
      exact List.nodup_nil

lemma init_labinv (n : Int) (gamma : ℚ) (r : RState) (hn : 1 ≤ n) :
    LabInv (initState n gamma r).graphs ∧ IdsOK (initState n gamma r).graphs := by
  have hs : (0 : Int) ≤ n - 1 := by omega
  have hcomm : ∀ (rr : RState),
      (∀ l, (labelCount (initCommunity n gamma rr).1.graph l : Int)
        = (initCommunity n gamma rr).1.countOf l) ∧
      NodupIds (initCommunity n gamma rr).1.graph := by
    intro rr
    constructor
    · intro l
      obtain ⟨hS, hI, hR⟩ := labelCount_generateErdosRenyi (n - 1) 1 0 gamma rr
        hs (by norm_num) (by norm_num)
      cases l
      · exact hS
      · exact hI
      · exact hR
    · show NodupIds (generateErdosRenyi (n - 1) 1 0 gamma rr).1
      exact nodupIds_erNodes _ _ _ _
  have h0 : getCommunity (initState n gamma r).graphs 0
    = (initCommunity n gamma r).1 := rfl
  have h1 : getCommunity (initState n gamma r).graphs 1
    = (initCommunity n gamma (initCommunity n gamma r).2).1 := rfl
  have h2 : getCommunity (initState n gamma r).graphs 2
    = (initCommunity n gamma (initCommunity n gamma
        (initCommunity n gamma r).2).2).1 := rfl
  have h3 : getCommunity (initState n gamma r).graphs 3
    = (initCommunity n gamma (initCommunity n gamma (initCommunity n gamma
        (initCommunity n gamma r).2).2).2).1 := rfl
  have hlen4 : (initState n gamma r).graphs.length = 4 := rfl
  constructor
  · intro j l
    rcases j with _ | _ | _ | _ | jj
    · rw [h0]
      exact (hcomm r).1 l
    · rw [h1]
      exact (hcomm _).1 l
    · rw [h2]
      exact (hcomm _).1 l
    · rw [h3]
      exact (hcomm _).1 l
    · have hout : getCommunity (initState n gamma r).graphs (jj + 4)
          = default := by
        apply getCommunity_out_of_range
        rw [hlen4]
        omega
      rw [hout]
      cases l <;> rfl
  · intro i
    rcases i with _ | _ | _ | _ | jj
    · rw [h0]
      exact (hcomm r).2
    · rw [h1]
      exact (hcomm _).2
    · rw [h2]
      exact (hcomm _).2
    · rw [h3]
      exact (hcomm _).2
    · have hout : getCommunity (initState n gamma r).graphs (jj + 4)
          = default := by
        apply getCommunity_out_of_range
        rw [hlen4]
        omega
      rw [hout]
      exact List.nodup_nil

lemma run_labinv (p : Params) (n : Int) (r : RState) (hn : 1 ≤ n) :
    ∀ t, LabInv (run p n t r).graphs ∧ IdsOK (run p n t r).graphs := by
  intro t
  induction t with
  | zero => exact init_labinv n p.gamma r hn
  | succ t ih =>
    rw [run_succ]
    exact step_labinv p (t + 1) (run p n t r) (run_basic p n t r).1 ih.1 ih.2

/-- C6 as amended: for every population n with 1 ≤ n ≤ 50, initialization stores
the counters n - 1 susceptible, 1 infected, 0 recovered in each of the four
communities - all non-negative - and after every timestep of every run all three
compartment counters of every community are still non-negative integers (each
equals the number of graph nodes carrying that label). The original range
included n = 0, for which initialization stores susceptible = -1; see the
counterexample. -/
theorem compartment_counts_nonneg (p : Params) (n : Int) (r : RState) (t k : Nat)
    (hn : 1 ≤ n) (hn50 : n ≤ 50) (hk : k < 4) :
    ((getCommunity (run p n 0 r).graphs k).susceptible = n - 1 ∧
     (getCommunity (run p n 0 r).graphs k).infected = 1 ∧
     (getCommunity (run p n 0 r).graphs k).recovered = 0) ∧
    (0 ≤ (getCommunity (run p n t r).graphs k).susceptible ∧
     0 ≤ (getCommunity (run p n t r).graphs k).infected ∧
     0 ≤ (getCommunity (run p n t r).graphs k).recovered) := by
  constructor
  · interval_cases k <;> exact ⟨rfl, rfl, rfl⟩
  · obtain ⟨hinv, _⟩ := run_labinv p n r hn t
    refine ⟨?_, ?_, ?_⟩
    · have h := hinv k Label.susceptible
      have h2 : (0 : Int) ≤ (labelCount
          (getCommunity (run p n t r).graphs k).graph Label.susceptible : Int) :=
        Int.natCast_nonneg _
      have h3 : (getCommunity (run p n t r).graphs k).countOf Label.susceptible
        = (getCommunity (run p n t r).graphs k).susceptible := rfl
      omega
    · have h := hinv k Label.infected
      have h2 : (0 : Int) ≤ (labelCount
          (getCommunity (run p n t r).graphs k).graph Label.infected : Int) :=
        Int.natCast_nonneg _
      have h3 : (getCommunity (run p n t r).graphs k).countOf Label.infected
        = (getCommunity (run p n t r).graphs k).infected := rfl
      omega
    · have h := hinv k Label.recovered
      have h2 : (0 : Int) ≤ (labelCount
          (getCommunity (run p n t r).graphs k).graph Label.recovered : Int) :=
        Int.natCast_nonneg _
      have h3 : (getCommunity (run p n t r).graphs k).countOf Label.recovered
        = (getCommunity (run p n t r).graphs k).recovered := rfl
      omega

/-- The amended C6 exercised at population 2, the half-rate parameters, the
constant tape and timestep 1, community 0. -/
theorem compartment_counts_nonneg_witness :
    ((1 : Int) ≤ 2 ∧ (2 : Int) ≤ 50 ∧ (0 : Nat) < 4) ∧
    (0 ≤ (getCommunity (run pHalf 2 1 tapeHalf).graphs 0).susceptible ∧
     0 ≤ (getCommunity (run pHalf 2 1 tapeHalf).graphs 0).infected ∧
     0 ≤ (getCommunity (run pHalf 2 1 tapeHalf).graphs 0).recovered) :=
  ⟨⟨by norm_num, by norm_num, by norm_num⟩,
   (compartment_counts_nonneg pHalf 2 tapeHalf 1 0 (by norm_num) (by norm_num)
     (by norm_num)).2⟩
